import Mathlib

/-!
# Ticket-booking: the reservation service

A shallow embedding of `src/core/BookingService.cpp` together with the model
classes it uses (`Seat`, `Movie`, `Theater`, `Booking`).

Modelling conventions.

* A `QVector<Seat*>` seat collection is a `List Seat`; a `Seat*` that points
  into a collection is the position of the seat in that list.  Every
  collection owns seat objects of its own (`initializeSeats` allocates them),
  so no two collections share a seat.
* A `QMap<int, V>` is an association list `List (Int × V)`; `find` returns the
  value stored at the first entry with the key.
* `int` identifiers are `Int`; the only arithmetic on an `int` is the
  increment of `m_nextBookingId`, which wraps at 32 bits.
* The values a call reads from its environment (the clock and the identity of
  the calling thread) are passed in as an `Env`.
* The Qt signals emitted by the service during a call are returned as a list,
  in emission order.
-/

/-! ## Model classes -/

/-- Seat statuses, `enum class Seat::Status`. -/
inductive Seat.Status
  | Available
  | Reserved
  | Occupied
  deriving DecidableEq, Repr

/-- The class `Seat`: an identifier and the current status. -/
structure Seat where
  m_id : String
  m_status : Seat.Status
  deriving DecidableEq, Repr

/-- The getter `Seat::getId`. -/
def Seat.getId (s : Seat) : String := s.m_id

/-- The getter `Seat::getStatus`. -/
def Seat.getStatus (s : Seat) : Seat.Status := s.m_status

/-- The method `Seat::isAvailable`: `m_status == Status::Available`. -/
def Seat.isAvailable (s : Seat) : Bool := decide (s.m_status = Seat.Status.Available)

/-- The method `Seat::setStatus`: when the status differs it is stored and
`statusChanged(status)` is emitted; the result is the seat afterwards and the
list of emitted `statusChanged` arguments. -/
def Seat.setStatus (s : Seat) (status : Seat.Status) : Seat × List Seat.Status :=
  if s.m_status ≠ status then ({ s with m_status := status }, [status]) else (s, [])

/-- The class `Movie`. -/
structure Movie where
  m_id : Int
  m_title : String
  m_duration : Int
  m_genre : String
  deriving DecidableEq, Repr

/-- The getter `Movie::getId`. -/
def Movie.getId (m : Movie) : Int := m.m_id

/-- The class `Theater`. -/
structure Theater where
  m_id : Int
  m_name : String
  m_capacity : Int
  deriving DecidableEq, Repr

/-- The constant `Theater::TOTAL_SEATS`. -/
def Theater.TOTAL_SEATS : Nat := 20

/-- The getter `Theater::getId`. -/
def Theater.getId (t : Theater) : Int := t.m_id

/-- The class `Booking` (the QObject); `m_bookingTime` is the clock value read
by its constructor. -/
structure Booking where
  m_id : Int
  m_customerId : String
  m_movieId : Int
  m_theaterId : Int
  m_seatIds : List String
  m_bookingTime : Nat
  deriving DecidableEq, Repr

/-- The getter `Booking::getCustomerId`. -/
def Booking.getCustomerId (b : Booking) : String := b.m_customerId

/-! ## `QMap<int, V>` -/

/-- A `QMap<int, V>` as an association list. -/
abbrev QMap (V : Type) : Type := List (Int × V)

/-- The lookup `QMap::find`: the value of the first entry with key `k`, `none`
standing for `end()`. -/
def QMap.find {V : Type} : QMap V → Int → Option V
  | [], _ => none
  | (k', v) :: rest, k => if k' = k then some v else QMap.find rest k

/-- The assignment `m[k] = v`: replaces the value of an existing key, and
otherwise inserts the entry at its place in key order. -/
def QMap.insert {V : Type} : QMap V → Int → V → QMap V
  | [], k, v => [(k, v)]
  | (k', v') :: rest, k, v =>
    if k < k' then (k, v) :: (k', v') :: rest
    else if k' = k then (k, v) :: rest
    else (k', v') :: QMap.insert rest k v

/-- A write through the iterator returned by `find k`: the value of the first
entry with key `k` becomes `f` of it; without such an entry nothing changes. -/
def QMap.modify {V : Type} : QMap V → Int → (V → V) → QMap V
  | [], _, _ => []
  | (k', v) :: rest, k, f =>
    if k' = k then (k', f v) :: rest else (k', v) :: QMap.modify rest k f

/-! ## The service -/

/-- The struct `BookingService::BookingData`. -/
structure BookingData where
  id : Int
  customerId : String
  movieId : Int
  theaterId : Int
  seatIds : List String
  bookingTime : Nat
  deriving DecidableEq, Repr

/-- The struct `BookingService::TheaterSeats`: movieId to seats. -/
structure TheaterSeats where
  movieSeats : QMap (List Seat)
  deriving DecidableEq, Repr

/-- The data members of `BookingService` (the two locks apart). -/
structure BookingService where
  m_movies : List Movie
  m_theaters : List Theater
  m_theaterSeats : QMap TheaterSeats
  m_bookings : List Booking
  m_bookingData : List BookingData
  m_nextBookingId : Int
  deriving DecidableEq, Repr

/-- The signals of `BookingService`. -/
inductive Signal
  | bookingCreated (booking : Booking)
  | seatsReserved (theaterId movieId : Int) (seatIds : List String)
  | reservationFailed (reason : String)
  deriving DecidableEq, Repr

/-- What one call of `reserveSeats` reads from outside the service. -/
structure Env where
  /-- The value of `QDateTime::currentDateTime()` stored in the `BookingData`. -/
  bookingTime : Nat
  /-- The value of `QDateTime::currentDateTime()` read by the `Booking` constructor. -/
  objectTime : Nat
  /-- Whether `QThread::currentThread() == this->thread()`. -/
  inServiceThread : Bool
  deriving DecidableEq, Repr

/-- The result of one call of `reserveSeats`: the returned flag, the service
afterwards, and the signals emitted, in order. -/
structure Outcome where
  ok : Bool
  svc : BookingService
  signals : List Signal
  deriving DecidableEq, Repr

/-- Increment of an `int` with 32-bit two's complement wrap-around. -/
def BookingService.incrInt32 (x : Int) : Int :=
  (x + 1 + 2 ^ 31) % 2 ^ 32 - 2 ^ 31

/-- The seat lookup inside `reserveSeats`: scans the collection in order and
stops at the first seat whose id equals `seatId`; the result is the position
of that seat (the pointer) with the seat it points to, `none` for `nullptr`. -/
def BookingService.findSeat : List Seat → String → Option (Nat × Seat)
  | [], _ => none
  | s :: rest, seatId =>
    if s.getId = seatId then some (0, s)
    else (BookingService.findSeat rest seatId).map (fun p => (p.1 + 1, p.2))

/-- The message `QString("Seat %1 not found").arg(seatId)`. -/
def BookingService.seatNotFoundMsg (seatId : String) : String :=
  "Seat " ++ seatId ++ " not found"

/-- The message `QString("Seat %1 is not available").arg(seatId)`. -/
def BookingService.seatNotAvailableMsg (seatId : String) : String :=
  "Seat " ++ seatId ++ " is not available"

/-- The verification loop of `reserveSeats` over the requested ids, from the
accumulated `seatsToReserve`: an id without a seat, or with a seat that is not
available, ends the loop with the failure reason; otherwise the pointer is
appended.  No seat is written. -/
def BookingService.verifySeats (seats : List Seat) :
    List String → List Nat → Except String (List Nat)
  | [], seatsToReserve => Except.ok seatsToReserve
  | seatId :: rest, seatsToReserve =>
    match BookingService.findSeat seats seatId with
    | none => Except.error (BookingService.seatNotFoundMsg seatId)
    | some (i, seat) =>
      if !seat.isAvailable then Except.error (BookingService.seatNotAvailableMsg seatId)
      else BookingService.verifySeats seats rest (seatsToReserve ++ [i])

/-- The call `seat->setStatus(status)` through the pointer `i` into `seats`. -/
def BookingService.setStatusAt : List Seat → Nat → Seat.Status → List Seat
  | [], _, _ => []
  | s :: rest, 0, status => (s.setStatus status).1 :: rest
  | s :: rest, i + 1, status => s :: BookingService.setStatusAt rest i status

/-- The commit loop of `reserveSeats`: `setStatus(Reserved)` on every pointer
of `seatsToReserve`, in order. -/
def BookingService.reserveAll (seats : List Seat) (seatsToReserve : List Nat) : List Seat :=
  seatsToReserve.foldl (fun acc i => BookingService.setStatusAt acc i Seat.Status.Reserved) seats

/-- The seat map after the seats of collection `(theaterId, movieId)` have
become `seats'`: the map entries reached by the two `find` calls of
`reserveSeats` hold the written seats, every other entry is untouched. -/
def BookingService.storeSeats (m : QMap TheaterSeats) (theaterId movieId : Int)
    (seats' : List Seat) : QMap TheaterSeats :=
  QMap.modify m theaterId (fun ts =>
    { ts with movieSeats := QMap.modify ts.movieSeats movieId (fun _ => seats') })

/-- The method `BookingService::reserveSeats`. -/
def BookingService.reserveSeats (self : BookingService) (env : Env)
    (theaterId movieId : Int) (seatIds : List String) (customerName : String) : Outcome :=
  match QMap.find self.m_theaterSeats theaterId with
  | none => ⟨false, self, [Signal.reservationFailed "Theater not found"]⟩
  | some theaterIt =>
    match QMap.find theaterIt.movieSeats movieId with
    | none => ⟨false, self, [Signal.reservationFailed "Movie not showing in this theater"]⟩
    | some seats =>
      match BookingService.verifySeats seats seatIds [] with
      | Except.error reason => ⟨false, self, [Signal.reservationFailed reason]⟩
      | Except.ok seatsToReserve =>
        let seats' := BookingService.reserveAll seats seatsToReserve
        let bookingId := self.m_nextBookingId
        let bookingData : BookingData :=
          ⟨bookingId, customerName, movieId, theaterId, seatIds, env.bookingTime⟩
        let booking : Option Booking :=
          if env.inServiceThread then
            some ⟨bookingId, customerName, movieId, theaterId, seatIds, env.objectTime⟩
          else none
        let self' : BookingService :=
          { self with
            m_theaterSeats :=
              BookingService.storeSeats self.m_theaterSeats theaterId movieId seats'
            m_nextBookingId := BookingService.incrInt32 bookingId
            m_bookingData := self.m_bookingData ++ [bookingData]
            m_bookings := self.m_bookings ++ booking.toList }
        ⟨true, self',
          Signal.seatsReserved theaterId movieId seatIds ::
            (booking.toList.map Signal.bookingCreated)⟩

/-- The method `BookingService::getMovies`. -/
def BookingService.getMovies (self : BookingService) : List Movie := self.m_movies

/-- The method `BookingService::getTheaters`; `movieId` is unused. -/
def BookingService.getTheaters (self : BookingService) (_movieId : Int) : List Theater :=
  self.m_theaters

/-- The method `BookingService::getAvailableSeats`. -/
def BookingService.getAvailableSeats (self : BookingService) (theaterId movieId : Int) :
    List Seat :=
  match QMap.find self.m_theaterSeats theaterId with
  | none => []
  | some theaterIt =>
    match QMap.find theaterIt.movieSeats movieId with
    | none => []
    | some seats => seats.filter (fun seat => seat.isAvailable)

/-- The method `BookingService::getBookings`. -/
def BookingService.getBookings (self : BookingService) (customerName : String) : List Booking :=
  self.m_bookings.filter (fun booking => decide (booking.getCustomerId = customerName))

/-- The method `BookingService::getBookingData`. -/
def BookingService.getBookingData (self : BookingService) (customerName : String) :
    List BookingData :=
  self.m_bookingData.filter (fun data => decide (data.customerId = customerName))

/-- The method `BookingService::initializeSeats`: `TOTAL_SEATS` new available
seats `A1`, `A2`, ... stored at `m_theaterSeats[theaterId].movieSeats[movieId]`
(`operator[]` creates a missing entry). -/
def BookingService.initializeSeats (self : BookingService) (theaterId movieId : Int) :
    BookingService :=
  let seats : List Seat :=
    (List.range Theater.TOTAL_SEATS).map
      (fun k => ⟨"A" ++ toString (k + 1), Seat.Status.Available⟩)
  let ts : TheaterSeats := (QMap.find self.m_theaterSeats theaterId).getD ⟨[]⟩
  { self with
    m_theaterSeats :=
      QMap.insert self.m_theaterSeats theaterId
        { ts with movieSeats := QMap.insert ts.movieSeats movieId seats } }

/-- The method `BookingService::initializeSampleData`. -/
def BookingService.initializeSampleData (self : BookingService) : BookingService :=
  let movies : List Movie :=
    self.m_movies ++
      [⟨1, "The Matrix Resurrections", 148, "Sci-Fi"⟩, ⟨2, "Dune: Part Two", 166, "Sci-Fi"⟩,
       ⟨3, "Oppenheimer", 180, "Drama"⟩, ⟨4, "Barbie", 114, "Comedy"⟩]
  let theaters : List Theater :=
    self.m_theaters ++
      [⟨1, "IMAX Hall", Theater.TOTAL_SEATS⟩, ⟨2, "VIP Hall", Theater.TOTAL_SEATS⟩,
       ⟨3, "Standard Hall A", Theater.TOTAL_SEATS⟩]
  let self1 : BookingService := { self with m_movies := movies, m_theaters := theaters }
  theaters.foldl
    (fun acc theater =>
      movies.foldl (fun acc' movie => acc'.initializeSeats theater.getId movie.getId) acc)
    self1

/-- The constructor `BookingService::BookingService`: empty containers,
`m_nextBookingId(1)`, then `initializeSampleData()`. -/
def BookingService.new : BookingService :=
  BookingService.initializeSampleData ⟨[], [], [], [], [], 1⟩

/-- The seat collection of `(theaterId, movieId)`: the two `find` calls that
open `reserveSeats` and `getAvailableSeats`. -/
def BookingService.seatsOf (self : BookingService) (theaterId movieId : Int) :
    Option (List Seat) :=
  match QMap.find self.m_theaterSeats theaterId with
  | none => none
  | some theaterIt => QMap.find theaterIt.movieSeats movieId

/-- The states reachable from a fresh service by calls of `reserveSeats`. -/
inductive BookingService.Reachable : BookingService → Prop
  | fresh : BookingService.Reachable BookingService.new
  | reserve (svc : BookingService) (env : Env) (theaterId movieId : Int)
      (seatIds : List String) (customerName : String) :
      BookingService.Reachable svc →
      BookingService.Reachable
        (svc.reserveSeats env theaterId movieId seatIds customerName).svc

/-- A run of calls of `reserveSeats` for one request, one call after the other
in the order in which the callers obtain `m_reservationMutex`; each caller
brings its environment and its customer name.  The result is the service at
the end and the outcomes, in call order. -/
def BookingService.reserveInTurn (svc : BookingService) (theaterId movieId : Int)
    (seatIds : List String) : List (Env × String) → BookingService × List Outcome
  | [] => (svc, [])
  | (env, customerName) :: rest =>
    let r := svc.reserveSeats env theaterId movieId seatIds customerName
    let later := BookingService.reserveInTurn r.svc theaterId movieId seatIds rest
    (later.1, r :: later.2)

/-! ## Definitions used in the statements and proofs -/

/-- The pointers accumulated by the verification loop for a list of ids that
all have a seat. -/
def BookingService.pointersOf (seats : List Seat) (seatIds : List String) : List Nat :=
  seatIds.filterMap (fun seatId => (BookingService.findSeat seats seatId).map Prod.fst)

/-- The keys of the seat map with, for every collection, the ids of its seats
in order: what `reserveSeats` never changes. -/
def BookingService.seatIdsOf (svc : BookingService) : List (Int × List (Int × List String)) :=
  svc.m_theaterSeats.map
    (fun p => (p.1, p.2.movieSeats.map (fun q => (q.1, q.2.map Seat.m_id))))

/-- Every seat id of every ledger booking is looked up, in the collection of
the booking, to a seat whose status is `Reserved`. -/
def BookingService.LedgerReserved (svc : BookingService) : Prop :=
  ∀ b ∈ svc.m_bookingData, ∀ seatId ∈ b.seatIds, ∃ seats i s,
    svc.seatsOf b.theaterId b.movieId = some seats ∧
    BookingService.findSeat seats seatId = some (i, s) ∧ s.m_status = Seat.Status.Reserved

/-- Ledger bookings of one theater and movie have no seat id in common. -/
def BookingService.LedgerDisjoint (svc : BookingService) : Prop :=
  svc.m_bookingData.Pairwise (fun a b =>
    a.theaterId = b.theaterId → a.movieId = b.movieId → List.Disjoint a.seatIds b.seatIds)

/-- A reachable state with two bookings: `A1` for Alice, then `A2` and `A3`
for Bob (from another thread), both in theater 1 for movie 1. -/
def BookingService.twoBookings : BookingService :=
  ((BookingService.new.reserveSeats ⟨10, 10, true⟩ 1 1 ["A1"] "Alice").svc.reserveSeats
    ⟨11, 11, false⟩ 1 1 ["A2", "A3"] "Bob").svc

/-- The seat after a commit for `seatIds`, when ids name seats: a seat whose id
is requested has status `Reserved`, any other seat is as it was. -/
def BookingService.markReserved (seatIds : List String) (s : Seat) : Seat :=
  if s.m_id ∈ seatIds then ⟨s.m_id, Seat.Status.Reserved⟩ else s

/-- A run of calls of `reserveSeats` for one theater and movie, one call after
the other; each call brings its environment, its seat ids and its customer
name.  The result is the service at the end and the outcomes, in call order. -/
def BookingService.reserveEach (svc : BookingService) (theaterId movieId : Int) :
    List (Env × List String × String) → BookingService × List Outcome
  | [] => (svc, [])
  | (env, seatIds, customerName) :: rest =>
    let r := svc.reserveSeats env theaterId movieId seatIds customerName
    let later := BookingService.reserveEach r.svc theaterId movieId rest
    (later.1, r :: later.2)

/-- The `int` that holds an integer value: its reduction to the 32-bit two's
complement range. -/
def BookingService.toInt32 (n : Int) : Int :=
  (n + 2 ^ 31) % 2 ^ 32 - 2 ^ 31

/-- The service after `n` successful calls of `reserveSeats` with an empty seat
list for theater 1 and movie 1, from a fresh service. -/
def BookingService.emptyRuns : Nat → BookingService
  | 0 => BookingService.new
  | n + 1 => ((BookingService.emptyRuns n).reserveSeats ⟨0, 0, false⟩ 1 1 [] "nobody").svc

/-- The states reached from a state by further calls of `reserveSeats` (the
other methods of the service are `const` and leave it as it is). -/
inductive BookingService.Steps (svc : BookingService) : BookingService → Prop
  | refl : BookingService.Steps svc svc
  | reserve (later : BookingService) (env : Env) (theaterId movieId : Int)
      (seatIds : List String) (customerName : String) :
      BookingService.Steps svc later →
      BookingService.Steps svc
        (later.reserveSeats env theaterId movieId seatIds customerName).svc

/-- Every seat whose status is not `Available` is named by a ledger booking of
its theater and movie. -/
def BookingService.ReservedBooked (svc : BookingService) : Prop :=
  ∀ (theaterId movieId : Int) (seats : List Seat),
    svc.seatsOf theaterId movieId = some seats →
    ∀ s ∈ seats, s.m_status ≠ Seat.Status.Available →
      ∃ b ∈ svc.m_bookingData, b.theaterId = theaterId ∧ b.movieId = movieId ∧
        s.m_id ∈ b.seatIds

/-- The ten single-seat requests `A1`, ..., `A10` of ten customers. -/
def BookingService.tenSingles : List (Env × List String × String) :=
  (List.range 10).map (fun k =>
    (⟨k, k, false⟩, ["A" ++ toString (k + 1)], "Customer" ++ toString k))

/-- The five three-seat requests `A1..A3`, ..., `A13..A15` of five customers. -/
def BookingService.fiveTriples : List (Env × List String × String) :=
  (List.range 5).map (fun k =>
    (⟨k, k, false⟩,
      [0, 1, 2].map (fun j => "A" ++ toString (k * 3 + 1 + j)), "Customer" ++ toString k))

/-- The ids of the seats of every collection of a fresh service. -/
def BookingService.freshIds : List String :=
  ["A1", "A2", "A3", "A4", "A5", "A6", "A7", "A8", "A9", "A10",
   "A11", "A12", "A13", "A14", "A15", "A16", "A17", "A18", "A19", "A20"]

/-! ## Lemmas on `QMap` -/

theorem QMap.find_modify_self {V : Type} (m : QMap V) (k : Int) (f : V → V) :
    QMap.find (QMap.modify m k f) k = (QMap.find m k).map f := by
  induction m with
  | nil => rfl
  | cons p rest ih =>
    obtain ⟨k', v⟩ := p
    by_cases hk : k' = k
    · simp [QMap.modify, QMap.find, hk]
    · simp [QMap.modify, QMap.find, hk, ih]

theorem QMap.find_modify_ne {V : Type} (m : QMap V) (k k₂ : Int) (f : V → V) (h : k ≠ k₂) :
    QMap.find (QMap.modify m k f) k₂ = QMap.find m k₂ := by
  induction m with
  | nil => rfl
  | cons p rest ih =>
    obtain ⟨k', v⟩ := p
    by_cases hk : k' = k
    · subst hk
      simp [QMap.modify, QMap.find, h]
    · by_cases hk₂ : k' = k₂
      · subst hk₂
        simp [QMap.modify, QMap.find, hk]
      · simp [QMap.modify, QMap.find, hk, hk₂, ih]

theorem QMap.modify_eq_self {V : Type} (m : QMap V) (k : Int) (f : V → V) (v : V)
    (h : QMap.find m k = some v) (hf : f v = v) : QMap.modify m k f = m := by
  induction m with
  | nil => rfl
  | cons p rest ih =>
    obtain ⟨k', v'⟩ := p
    by_cases hk : k' = k
    · simp [QMap.find, hk] at h
      subst h
      simp [QMap.modify, hk, hf]
    · simp [QMap.find, hk] at h
      simp [QMap.modify, hk, ih h]

theorem QMap.find_eq_none_iff {V : Type} (m : QMap V) (k : Int) :
    QMap.find m k = none ↔ k ∉ m.map Prod.fst := by
  induction m with
  | nil => simp [QMap.find]
  | cons p rest ih =>
    obtain ⟨k', v⟩ := p
    by_cases hk : k' = k
    · simp [QMap.find, hk]
    · have hk' : ¬ k = k' := fun e => hk e.symm
      simp [QMap.find, hk, hk', ih]

theorem QMap.mem_of_find {V : Type} (m : QMap V) (k : Int) (v : V)
    (h : QMap.find m k = some v) : (k, v) ∈ m := by
  induction m with
  | nil => simp [QMap.find] at h
  | cons p rest ih =>
    obtain ⟨k', v'⟩ := p
    by_cases hk : k' = k
    · simp [QMap.find, hk] at h
      simp [hk, h]
    · simp [QMap.find, hk] at h
      exact List.mem_cons_of_mem _ (ih h)

/-! ## Lemmas on the seat lookup and the two loops -/

theorem Seat.setStatus_fst (s : Seat) (status : Seat.Status) :
    (s.setStatus status).1 = ⟨s.m_id, status⟩ := by
  unfold Seat.setStatus
  split
  · rfl
  · rename_i h
    have h' : s.m_status = status := not_not.mp h
    cases s
    simp_all

theorem BookingService.findSeat_some {seats : List Seat} {seatId : String} {i : Nat} {s : Seat}
    (h : BookingService.findSeat seats seatId = some (i, s)) :
    seats[i]? = some s ∧ s.m_id = seatId := by
  induction seats generalizing i with
  | nil => simp [BookingService.findSeat] at h
  | cons t rest ih =>
    unfold BookingService.findSeat at h
    split at h
    · rename_i ht
      simp at h
      obtain ⟨rfl, rfl⟩ := h
      exact ⟨by simp, ht⟩
    · cases hr : BookingService.findSeat rest seatId with
      | none => simp [hr] at h
      | some p =>
        obtain ⟨j, u⟩ := p
        simp [hr] at h
        obtain ⟨rfl, rfl⟩ := h
        have := ih hr
        simpa using this

theorem BookingService.findSeat_mem {seats : List Seat} {seatId : String} {i : Nat} {s : Seat}
    (h : BookingService.findSeat seats seatId = some (i, s)) : s ∈ seats ∧ s.m_id = seatId := by
  have h' := BookingService.findSeat_some h
  exact ⟨List.getElem?_mem h'.1, h'.2⟩

theorem BookingService.findSeat_eq_none_iff (seats : List Seat) (seatId : String) :
    BookingService.findSeat seats seatId = none ↔ ∀ s ∈ seats, s.m_id ≠ seatId := by
  induction seats with
  | nil => simp [BookingService.findSeat]
  | cons t rest ih =>
    by_cases ht : t.m_id = seatId
    · simp [BookingService.findSeat, Seat.getId, ht]
    · simp [BookingService.findSeat, Seat.getId, ht, ih]

theorem BookingService.findSeat_setStatusAt (seats : List Seat) (j : Nat) (status : Seat.Status)
    (seatId : String) :
    BookingService.findSeat (BookingService.setStatusAt seats j status) seatId =
      (BookingService.findSeat seats seatId).map
        (fun p => (p.1, if p.1 = j then ⟨p.2.m_id, status⟩ else p.2)) := by
  induction seats generalizing j with
  | nil => simp [BookingService.setStatusAt, BookingService.findSeat]
  | cons t rest ih =>
    cases j with
    | zero =>
      by_cases ht : t.m_id = seatId
      · simp [BookingService.setStatusAt, BookingService.findSeat, Seat.getId, ht,
          Seat.setStatus_fst]
      · simp [BookingService.setStatusAt, BookingService.findSeat, Seat.getId, ht,
          Seat.setStatus_fst]
        cases BookingService.findSeat rest seatId <;> simp
    | succ j =>
      by_cases ht : t.m_id = seatId
      · simp [BookingService.setStatusAt, BookingService.findSeat, Seat.getId, ht]
      · simp [BookingService.setStatusAt, BookingService.findSeat, Seat.getId, ht, ih]
        cases BookingService.findSeat rest seatId <;> simp

theorem BookingService.findSeat_reserveAll (seats : List Seat) (idxs : List Nat)
    (seatId : String) :
    BookingService.findSeat (BookingService.reserveAll seats idxs) seatId =
      (BookingService.findSeat seats seatId).map
        (fun p => (p.1, if p.1 ∈ idxs then ⟨p.2.m_id, Seat.Status.Reserved⟩ else p.2)) := by
  induction idxs generalizing seats with
  | nil =>
    simp [BookingService.reserveAll]
  | cons j rest ih =>
    have hstep : BookingService.reserveAll seats (j :: rest) =
        BookingService.reserveAll (BookingService.setStatusAt seats j Seat.Status.Reserved) rest := by
      simp [BookingService.reserveAll]
    rw [hstep, ih, BookingService.findSeat_setStatusAt]
    cases BookingService.findSeat seats seatId with
    | none => rfl
    | some p =>
      obtain ⟨i, s⟩ := p
      by_cases hij : i = j
      · by_cases hir : i ∈ rest <;> simp [hij, hir]
      · by_cases hir : i ∈ rest <;> simp [hij, hir]

theorem BookingService.verifySeats_ok_of_all (seats : List Seat) (seatIds : List String)
    (acc : List Nat)
    (h : ∀ seatId ∈ seatIds, ∃ i s, BookingService.findSeat seats seatId = some (i, s) ∧
      s.m_status = Seat.Status.Available) :
    BookingService.verifySeats seats seatIds acc =
      Except.ok (acc ++ BookingService.pointersOf seats seatIds) := by
  induction seatIds generalizing acc with
  | nil => simp [BookingService.verifySeats, BookingService.pointersOf]
  | cons seatId rest ih =>
    obtain ⟨i, s, hfind, hs⟩ := h seatId (List.mem_cons_self _ _)
    have hrest := ih (acc ++ [i]) (fun x hx => h x (List.mem_cons_of_mem _ hx))
    simp only [BookingService.verifySeats, hfind, Seat.isAvailable, hs]
    simp [hrest, BookingService.pointersOf, hfind]

theorem BookingService.verifySeats_all_of_ok (seats : List Seat) (seatIds : List String)
    (acc r : List Nat) (h : BookingService.verifySeats seats seatIds acc = Except.ok r) :
    ∀ seatId ∈ seatIds, ∃ i s, BookingService.findSeat seats seatId = some (i, s) ∧
      s.m_status = Seat.Status.Available := by
  induction seatIds generalizing acc with
  | nil => simp
  | cons seatId rest ih =>
    unfold BookingService.verifySeats at h
    split at h
    · simp at h
    · rename_i i seat hfind
      split at h
      · simp at h
      · rename_i hav
        have hs : seat.m_status = Seat.Status.Available := by
          simpa [Seat.isAvailable] using hav
        intro x hx
        rcases List.mem_cons.mp hx with rfl | hx
        · exact ⟨i, seat, hfind, hs⟩
        · exact ih _ h x hx

theorem BookingService.verifySeats_ok_eq (seats : List Seat) (seatIds : List String)
    (r : List Nat) (h : BookingService.verifySeats seats seatIds [] = Except.ok r) :
    r = BookingService.pointersOf seats seatIds := by
  have hall := BookingService.verifySeats_all_of_ok seats seatIds [] r h
  rw [BookingService.verifySeats_ok_of_all seats seatIds [] hall] at h
  simpa using h.symm

theorem BookingService.verifySeats_append (seats : List Seat) (pre rest : List String)
    (acc : List Nat)
    (h : ∀ seatId ∈ pre, ∃ i s, BookingService.findSeat seats seatId = some (i, s) ∧
      s.m_status = Seat.Status.Available) :
    BookingService.verifySeats seats (pre ++ rest) acc =
      BookingService.verifySeats seats rest (acc ++ BookingService.pointersOf seats pre) := by
  induction pre generalizing acc with
  | nil => simp [BookingService.pointersOf]
  | cons seatId tl ih =>
    obtain ⟨i, s, hfind, hs⟩ := h seatId (List.mem_cons_self _ _)
    have htl := ih (acc ++ [i]) (fun x hx => h x (List.mem_cons_of_mem _ hx))
    simp only [List.cons_append, BookingService.verifySeats, hfind, Seat.isAvailable, hs]
    simp [htl, BookingService.pointersOf, hfind]

theorem BookingService.mem_pointersOf {seats : List Seat} {seatIds : List String} {i : Nat} :
    i ∈ BookingService.pointersOf seats seatIds ↔
      ∃ seatId ∈ seatIds, ∃ s, BookingService.findSeat seats seatId = some (i, s) := by
  simp only [BookingService.pointersOf, List.mem_filterMap, Option.map_eq_some']
  constructor
  · rintro ⟨seatId, hmem, ⟨j, s⟩, hfind, rfl⟩
    exact ⟨seatId, hmem, s, hfind⟩
  · rintro ⟨seatId, hmem, s, hfind⟩
    exact ⟨seatId, hmem, (i, s), hfind, rfl⟩

/-! ## Unfolding `reserveSeats` -/

theorem BookingService.reserveSeats_no_theater (svc : BookingService) (env : Env)
    (theaterId movieId : Int) (seatIds : List String) (customerName : String)
    (h : QMap.find svc.m_theaterSeats theaterId = none) :
    svc.reserveSeats env theaterId movieId seatIds customerName =
      ⟨false, svc, [Signal.reservationFailed "Theater not found"]⟩ := by
  simp [BookingService.reserveSeats, h]

theorem BookingService.reserveSeats_no_show (svc : BookingService) (env : Env)
    (theaterId movieId : Int) (seatIds : List String) (customerName : String)
    (ts : TheaterSeats) (h₁ : QMap.find svc.m_theaterSeats theaterId = some ts)
    (h₂ : QMap.find ts.movieSeats movieId = none) :
    svc.reserveSeats env theaterId movieId seatIds customerName =
      ⟨false, svc, [Signal.reservationFailed "Movie not showing in this theater"]⟩ := by
  simp [BookingService.reserveSeats, h₁, h₂]

theorem BookingService.reserveSeats_verify_error (svc : BookingService) (env : Env)
    (theaterId movieId : Int) (seatIds : List String) (customerName : String)
    (ts : TheaterSeats) (seats : List Seat) (reason : String)
    (h₁ : QMap.find svc.m_theaterSeats theaterId = some ts)
    (h₂ : QMap.find ts.movieSeats movieId = some seats)
    (h₃ : BookingService.verifySeats seats seatIds [] = Except.error reason) :
    svc.reserveSeats env theaterId movieId seatIds customerName =
      ⟨false, svc, [Signal.reservationFailed reason]⟩ := by
  simp [BookingService.reserveSeats, h₁, h₂, h₃]

theorem BookingService.reserveSeats_verify_ok (svc : BookingService) (env : Env)
    (theaterId movieId : Int) (seatIds : List String) (customerName : String)
    (ts : TheaterSeats) (seats : List Seat) (ptrs : List Nat)
    (h₁ : QMap.find svc.m_theaterSeats theaterId = some ts)
    (h₂ : QMap.find ts.movieSeats movieId = some seats)
    (h₃ : BookingService.verifySeats seats seatIds [] = Except.ok ptrs) :
    svc.reserveSeats env theaterId movieId seatIds customerName =
      ⟨true,
        { svc with
          m_theaterSeats :=
            BookingService.storeSeats svc.m_theaterSeats theaterId movieId
              (BookingService.reserveAll seats ptrs)
          m_nextBookingId := BookingService.incrInt32 svc.m_nextBookingId
          m_bookingData := svc.m_bookingData ++
            [⟨svc.m_nextBookingId, customerName, movieId, theaterId, seatIds, env.bookingTime⟩]
          m_bookings := svc.m_bookings ++
            (if env.inServiceThread then
              [⟨svc.m_nextBookingId, customerName, movieId, theaterId, seatIds, env.objectTime⟩]
            else []) },
        Signal.seatsReserved theaterId movieId seatIds ::
          (if env.inServiceThread then
            [Signal.bookingCreated
              ⟨svc.m_nextBookingId, customerName, movieId, theaterId, seatIds, env.objectTime⟩]
          else [])⟩ := by
  cases hthr : env.inServiceThread <;>
    simp [BookingService.reserveSeats, h₁, h₂, h₃, hthr]

theorem BookingService.seatsOf_eq_some_iff (svc : BookingService) (theaterId movieId : Int)
    (seats : List Seat) :
    svc.seatsOf theaterId movieId = some seats ↔
      ∃ ts, QMap.find svc.m_theaterSeats theaterId = some ts ∧
        QMap.find ts.movieSeats movieId = some seats := by
  unfold BookingService.seatsOf
  cases QMap.find svc.m_theaterSeats theaterId <;> simp

theorem BookingService.find_storeSeats (m : QMap TheaterSeats) (theaterId movieId : Int)
    (seats' : List Seat) (t₂ m₂ : Int) :
    (match QMap.find (BookingService.storeSeats m theaterId movieId seats') t₂ with
      | none => none
      | some ts => QMap.find ts.movieSeats m₂) =
    (match QMap.find m t₂ with
      | none => none
      | some ts =>
        if t₂ = theaterId ∧ m₂ = movieId then (QMap.find ts.movieSeats m₂).map (fun _ => seats')
        else QMap.find ts.movieSeats m₂) := by
  unfold BookingService.storeSeats
  by_cases ht : theaterId = t₂
  · subst ht
    rw [QMap.find_modify_self]
    cases QMap.find m theaterId with
    | none => rfl
    | some ts =>
      by_cases hm : movieId = m₂
      · subst hm
        simp [QMap.find_modify_self]
      · have hm' : ¬ m₂ = movieId := fun e => hm e.symm
        simp [QMap.find_modify_ne _ _ _ _ hm, hm']
  · have ht' : ¬ t₂ = theaterId := fun e => ht e.symm
    rw [QMap.find_modify_ne _ _ _ _ ht]
    simp [ht']

theorem BookingService.seatsOf_storeSeats (svc svc' : BookingService) (theaterId movieId : Int)
    (ts : TheaterSeats) (seats seats' : List Seat)
    (h₁ : QMap.find svc.m_theaterSeats theaterId = some ts)
    (h₂ : QMap.find ts.movieSeats movieId = some seats)
    (hs : svc'.m_theaterSeats =
      BookingService.storeSeats svc.m_theaterSeats theaterId movieId seats')
    (t₂ m₂ : Int) :
    svc'.seatsOf t₂ m₂ =
      if t₂ = theaterId ∧ m₂ = movieId then some seats' else svc.seatsOf t₂ m₂ := by
  unfold BookingService.seatsOf
  rw [hs, BookingService.find_storeSeats]
  by_cases h : t₂ = theaterId ∧ m₂ = movieId
  · obtain ⟨rfl, rfl⟩ := h
    simp [h₁, h₂]
  · simp only [h, if_false]

/-- After a verified request every requested id is looked up to a seat whose
status is `Reserved` in the written collection. -/
theorem BookingService.findSeat_reserveAll_of_mem (seats : List Seat) (seatIds : List String)
    (seatId : String) (hmem : seatId ∈ seatIds) (i : Nat) (s : Seat)
    (hfind : BookingService.findSeat seats seatId = some (i, s)) :
    BookingService.findSeat
        (BookingService.reserveAll seats (BookingService.pointersOf seats seatIds)) seatId =
      some (i, ⟨s.m_id, Seat.Status.Reserved⟩) := by
  have hi : i ∈ BookingService.pointersOf seats seatIds :=
    BookingService.mem_pointersOf.mpr ⟨seatId, hmem, s, hfind⟩
  simp [BookingService.findSeat_reserveAll, hfind, hi]

/-- The shape of a successful call: the collection, the pointers verified and
the resulting outcome. -/
theorem BookingService.reserveSeats_ok_shape (svc : BookingService) (env : Env)
    (theaterId movieId : Int) (seatIds : List String) (customerName : String)
    (h : (svc.reserveSeats env theaterId movieId seatIds customerName).ok = true) :
    ∃ ts seats,
      QMap.find svc.m_theaterSeats theaterId = some ts ∧
      QMap.find ts.movieSeats movieId = some seats ∧
      BookingService.verifySeats seats seatIds [] =
        Except.ok (BookingService.pointersOf seats seatIds) := by
  cases h₁ : QMap.find svc.m_theaterSeats theaterId with
  | none =>
    rw [BookingService.reserveSeats_no_theater svc env theaterId movieId seatIds customerName h₁]
      at h
    simp at h
  | some ts =>
    cases h₂ : QMap.find ts.movieSeats movieId with
    | none =>
      rw [BookingService.reserveSeats_no_show svc env theaterId movieId seatIds customerName
        ts h₁ h₂] at h
      simp at h
    | some seats =>
      cases h₃ : BookingService.verifySeats seats seatIds [] with
      | error reason =>
        rw [BookingService.reserveSeats_verify_error svc env theaterId movieId seatIds
          customerName ts seats reason h₁ h₂ h₃] at h
        simp at h
      | ok ptrs =>
        have hp := BookingService.verifySeats_ok_eq seats seatIds ptrs h₃
        subst hp
        exact ⟨ts, seats, rfl, h₂, h₃⟩

/-- A call that returns `false` leaves the service as it was and emits one
`reservationFailed`. -/
theorem BookingService.reserveSeats_fail_shape (svc : BookingService) (env : Env)
    (theaterId movieId : Int) (seatIds : List String) (customerName : String)
    (h : (svc.reserveSeats env theaterId movieId seatIds customerName).ok = false) :
    ∃ reason, svc.reserveSeats env theaterId movieId seatIds customerName =
      ⟨false, svc, [Signal.reservationFailed reason]⟩ := by
  cases h₁ : QMap.find svc.m_theaterSeats theaterId with
  | none =>
    exact ⟨_, BookingService.reserveSeats_no_theater svc env theaterId movieId seatIds
      customerName h₁⟩
  | some ts =>
    cases h₂ : QMap.find ts.movieSeats movieId with
    | none =>
      exact ⟨_, BookingService.reserveSeats_no_show svc env theaterId movieId seatIds
        customerName ts h₁ h₂⟩
    | some seats =>
      cases h₃ : BookingService.verifySeats seats seatIds [] with
      | error reason =>
        exact ⟨_, BookingService.reserveSeats_verify_error svc env theaterId movieId seatIds
          customerName ts seats reason h₁ h₂ h₃⟩
      | ok ptrs =>
        rw [BookingService.reserveSeats_verify_ok svc env theaterId movieId seatIds
          customerName ts seats ptrs h₁ h₂ h₃] at h
        simp at h

/-! ## Invariants of the reachable states -/

theorem QMap.map_modify_of_find {V W : Type} (m : QMap V) (k : Int) (f : V → V)
    (g : Int × V → W) (h : ∀ v, QMap.find m k = some v → g (k, f v) = g (k, v)) :
    (QMap.modify m k f).map g = m.map g := by
  induction m with
  | nil => rfl
  | cons p rest ih =>
    obtain ⟨k', v⟩ := p
    by_cases hk : k' = k
    · subst hk
      have := h v (by simp [QMap.find])
      simp [QMap.modify, this]
    · have ih' := ih (fun v hv => h v (by simpa [QMap.find, hk] using hv))
      simp [QMap.modify, hk, ih']

theorem BookingService.setStatusAt_map_id (seats : List Seat) (i : Nat) (status : Seat.Status) :
    (BookingService.setStatusAt seats i status).map Seat.m_id = seats.map Seat.m_id := by
  induction seats generalizing i with
  | nil => rfl
  | cons t rest ih =>
    cases i with
    | zero => simp [BookingService.setStatusAt, Seat.setStatus_fst]
    | succ i => simp [BookingService.setStatusAt, ih]

theorem BookingService.reserveAll_map_id (seats : List Seat) (ptrs : List Nat) :
    (BookingService.reserveAll seats ptrs).map Seat.m_id = seats.map Seat.m_id := by
  induction ptrs generalizing seats with
  | nil => rfl
  | cons j rest ih =>
    have hstep : BookingService.reserveAll seats (j :: rest) =
        BookingService.reserveAll (BookingService.setStatusAt seats j Seat.Status.Reserved) rest := by
      simp [BookingService.reserveAll]
    rw [hstep, ih, BookingService.setStatusAt_map_id]

theorem BookingService.seatIdsOf_reserveSeats (svc : BookingService) (env : Env)
    (theaterId movieId : Int) (seatIds : List String) (customerName : String) :
    (svc.reserveSeats env theaterId movieId seatIds customerName).svc.seatIdsOf =
      svc.seatIdsOf := by
  cases hok : (svc.reserveSeats env theaterId movieId seatIds customerName).ok with
  | false =>
    obtain ⟨reason, hr⟩ :=
      BookingService.reserveSeats_fail_shape svc env theaterId movieId seatIds customerName hok
    rw [hr]
  | true =>
    obtain ⟨ts, seats, h₁, h₂, h₃⟩ :=
      BookingService.reserveSeats_ok_shape svc env theaterId movieId seatIds customerName hok
    rw [BookingService.reserveSeats_verify_ok svc env theaterId movieId seatIds
      customerName ts seats _ h₁ h₂ h₃]
    simp only [BookingService.seatIdsOf, BookingService.storeSeats]
    apply QMap.map_modify_of_find
    intro v hv
    rw [h₁] at hv
    cases hv
    simp only [Prod.mk.injEq, true_and]
    apply QMap.map_modify_of_find
    intro w hw
    rw [h₂] at hw
    cases hw
    simp [BookingService.reserveAll_map_id]

theorem BookingService.Reachable.seatIdsOf_eq {svc : BookingService}
    (h : BookingService.Reachable svc) :
    svc.seatIdsOf = BookingService.new.seatIdsOf := by
  induction h with
  | fresh => rfl
  | reserve svc env theaterId movieId seatIds customerName _ ih =>
    rw [BookingService.seatIdsOf_reserveSeats, ih]

theorem BookingService.new_seatIds_nodup :
    ∀ e ∈ BookingService.new.seatIdsOf, ∀ q ∈ e.2, q.2.Nodup := by
  decide

/-- In a reachable state the seats of a collection have pairwise distinct ids. -/
theorem BookingService.Reachable.nodup_ids {svc : BookingService}
    (h : BookingService.Reachable svc) {theaterId movieId : Int} {seats : List Seat}
    (hs : svc.seatsOf theaterId movieId = some seats) : (seats.map Seat.m_id).Nodup := by
  obtain ⟨ts, h₁, h₂⟩ := (BookingService.seatsOf_eq_some_iff svc theaterId movieId seats).mp hs
  have hm₁ := QMap.mem_of_find _ _ _ h₁
  have hm₂ := QMap.mem_of_find _ _ _ h₂
  have he : (theaterId, ts.movieSeats.map (fun q => (q.1, q.2.map Seat.m_id))) ∈
      svc.seatIdsOf := by
    unfold BookingService.seatIdsOf
    exact List.mem_map.mpr ⟨(theaterId, ts), hm₁, rfl⟩
  rw [h.seatIdsOf_eq] at he
  have hq : (movieId, seats.map Seat.m_id) ∈
      ts.movieSeats.map (fun q => (q.1, q.2.map Seat.m_id)) :=
    List.mem_map.mpr ⟨(movieId, seats), hm₂, rfl⟩
  exact BookingService.new_seatIds_nodup _ he _ hq

/-- With pairwise distinct ids, a seat of the collection is the one its id is
looked up to. -/
theorem BookingService.findSeat_of_mem_nodup {seats : List Seat}
    (hnd : (seats.map Seat.m_id).Nodup) {s : Seat} (hs : s ∈ seats) :
    ∃ i, BookingService.findSeat seats s.m_id = some (i, s) := by
  cases hfind : BookingService.findSeat seats s.m_id with
  | none =>
    exact absurd rfl ((BookingService.findSeat_eq_none_iff seats s.m_id).mp hfind s hs)
  | some p =>
    obtain ⟨i, s₀⟩ := p
    have hm := BookingService.findSeat_mem hfind
    have : s₀ = s := List.inj_on_of_nodup_map hnd hm.1 hs hm.2
    exact ⟨i, by rw [this]⟩

theorem BookingService.ledger_invariant_step (svc : BookingService) (env : Env)
    (theaterId movieId : Int) (seatIds : List String) (customerName : String)
    (hres : svc.LedgerReserved) (hdis : svc.LedgerDisjoint) :
    (svc.reserveSeats env theaterId movieId seatIds customerName).svc.LedgerReserved ∧
    (svc.reserveSeats env theaterId movieId seatIds customerName).svc.LedgerDisjoint := by
  cases hok : (svc.reserveSeats env theaterId movieId seatIds customerName).ok with
  | false =>
    obtain ⟨reason, hr⟩ :=
      BookingService.reserveSeats_fail_shape svc env theaterId movieId seatIds customerName hok
    rw [hr]
    exact ⟨hres, hdis⟩
  | true =>
    obtain ⟨ts, seats, h₁, h₂, h₃⟩ :=
      BookingService.reserveSeats_ok_shape svc env theaterId movieId seatIds customerName hok
    have hr := BookingService.reserveSeats_verify_ok svc env theaterId movieId seatIds
      customerName ts seats _ h₁ h₂ h₃
    have hall := BookingService.verifySeats_all_of_ok seats seatIds [] _ h₃
    have hseats : svc.seatsOf theaterId movieId = some seats :=
      (BookingService.seatsOf_eq_some_iff svc theaterId movieId seats).mpr ⟨ts, h₁, h₂⟩
    have hafter := BookingService.seatsOf_storeSeats svc
      (svc.reserveSeats env theaterId movieId seatIds customerName).svc theaterId movieId ts
      seats (BookingService.reserveAll seats (BookingService.pointersOf seats seatIds)) h₁ h₂
      (by rw [hr])
    have hledger : (svc.reserveSeats env theaterId movieId seatIds customerName).svc.m_bookingData
        = svc.m_bookingData ++
          [⟨svc.m_nextBookingId, customerName, movieId, theaterId, seatIds, env.bookingTime⟩] := by
      rw [hr]
    constructor
    · intro b hb seatId hid
      rw [hledger, List.mem_append] at hb
      rcases hb with hb | hb
      · obtain ⟨seats₀, i, s, hs₀, hfind, hst⟩ := hres b hb seatId hid
        by_cases hsame : b.theaterId = theaterId ∧ b.movieId = movieId
        · have hs₁ : seats₀ = seats := by
            rw [hsame.1, hsame.2, hseats] at hs₀
            exact (Option.some.inj hs₀).symm
          rw [hs₁] at hfind
          refine ⟨BookingService.reserveAll seats (BookingService.pointersOf seats seatIds), i,
            (if i ∈ BookingService.pointersOf seats seatIds then
              ⟨s.m_id, Seat.Status.Reserved⟩ else s), ?_, ?_, ?_⟩
          · rw [hafter, if_pos hsame]
          · rw [BookingService.findSeat_reserveAll, hfind]
            rfl
          · split
            · rfl
            · exact hst
        · refine ⟨seats₀, i, s, ?_, hfind, hst⟩
          rw [hafter, if_neg hsame]
          exact hs₀
      · rw [List.mem_singleton] at hb
        subst hb
        obtain ⟨i, s, hfind, _⟩ := hall seatId hid
        refine ⟨BookingService.reserveAll seats (BookingService.pointersOf seats seatIds), i,
          ⟨s.m_id, Seat.Status.Reserved⟩, ?_,
          BookingService.findSeat_reserveAll_of_mem seats seatIds seatId hid i s hfind, rfl⟩
        rw [hafter]
        simp
    · unfold BookingService.LedgerDisjoint
      rw [hledger, List.pairwise_append]
      refine ⟨hdis, List.pairwise_singleton _ _, ?_⟩
      intro a ha b hb hT hM seatId hida hidb
      rw [List.mem_singleton] at hb
      subst hb
      simp only at hT hM hidb
      obtain ⟨seats₀, i, s, hs₀, hfind, hst⟩ := hres a ha seatId hida
      rw [hT, hM, hseats] at hs₀
      have hs₁ : seats₀ = seats := (Option.some.inj hs₀).symm
      rw [hs₁] at hfind
      obtain ⟨i', s', hfind', hav⟩ := hall seatId hidb
      rw [hfind] at hfind'
      have : s = s' := by
        have := Option.some.inj hfind'
        exact (Prod.mk.inj this).2
      rw [this, hav] at hst
      cases hst

theorem BookingService.Reachable.ledger_invariant {svc : BookingService}
    (h : BookingService.Reachable svc) : svc.LedgerReserved ∧ svc.LedgerDisjoint := by
  induction h with
  | fresh =>
    have hnil : BookingService.new.m_bookingData = [] := by decide
    constructor
    · intro b hb
      rw [hnil] at hb
      cases hb
    · unfold BookingService.LedgerDisjoint
      rw [hnil]
      exact List.Pairwise.nil
  | reserve svc env theaterId movieId seatIds customerName _ ih =>
    exact BookingService.ledger_invariant_step svc env theaterId movieId seatIds customerName
      ih.1 ih.2

/-! ## Outcomes of `reserveSeats` from the state of the collection -/

/-- A successful call, seen from the collection: every requested id was looked
up to an available seat before, and is looked up to the same position with
status `Reserved` after; the ledger and the counter have moved by one. -/
theorem BookingService.reserveSeats_ok_after (svc : BookingService) (env : Env)
    (theaterId movieId : Int) (seatIds : List String) (customerName : String)
    (h : (svc.reserveSeats env theaterId movieId seatIds customerName).ok = true) :
    ∃ seats seats',
      svc.seatsOf theaterId movieId = some seats ∧
      (svc.reserveSeats env theaterId movieId seatIds customerName).svc.seatsOf
        theaterId movieId = some seats' ∧
      (∀ seatId ∈ seatIds, ∃ i s,
        BookingService.findSeat seats seatId = some (i, s) ∧
        s.m_status = Seat.Status.Available ∧
        BookingService.findSeat seats' seatId = some (i, ⟨s.m_id, Seat.Status.Reserved⟩)) ∧
      (svc.reserveSeats env theaterId movieId seatIds customerName).svc.m_bookingData =
        svc.m_bookingData ++
          [⟨svc.m_nextBookingId, customerName, movieId, theaterId, seatIds, env.bookingTime⟩] ∧
      (svc.reserveSeats env theaterId movieId seatIds customerName).svc.m_nextBookingId =
        BookingService.incrInt32 svc.m_nextBookingId := by
  obtain ⟨ts, seats, h₁, h₂, h₃⟩ :=
    BookingService.reserveSeats_ok_shape svc env theaterId movieId seatIds customerName h
  have hr := BookingService.reserveSeats_verify_ok svc env theaterId movieId seatIds
    customerName ts seats _ h₁ h₂ h₃
  have hall := BookingService.verifySeats_all_of_ok seats seatIds [] _ h₃
  refine ⟨seats, BookingService.reserveAll seats (BookingService.pointersOf seats seatIds),
    (BookingService.seatsOf_eq_some_iff svc theaterId movieId seats).mpr ⟨ts, h₁, h₂⟩,
    ?_, ?_, by rw [hr], by rw [hr]⟩
  · rw [BookingService.seatsOf_storeSeats svc _ theaterId movieId ts seats _ h₁ h₂
      (by rw [hr]) theaterId movieId]
    simp
  · intro seatId hmem
    obtain ⟨i, s, hfind, hav⟩ := hall seatId hmem
    exact ⟨i, s, hfind, hav,
      BookingService.findSeat_reserveAll_of_mem seats seatIds seatId hmem i s hfind⟩

/-- When every requested id is looked up to an available seat of an existing
collection, the call succeeds. -/
theorem BookingService.reserveSeats_ok_of_all (svc : BookingService) (env : Env)
    (theaterId movieId : Int) (seatIds : List String) (customerName : String)
    (seats : List Seat) (hs : svc.seatsOf theaterId movieId = some seats)
    (hall : ∀ seatId ∈ seatIds, ∃ i s, BookingService.findSeat seats seatId = some (i, s) ∧
      s.m_status = Seat.Status.Available) :
    (svc.reserveSeats env theaterId movieId seatIds customerName).ok = true := by
  obtain ⟨ts, h₁, h₂⟩ := (BookingService.seatsOf_eq_some_iff svc theaterId movieId seats).mp hs
  rw [BookingService.reserveSeats_verify_ok svc env theaterId movieId seatIds customerName
    ts seats _ h₁ h₂ (BookingService.verifySeats_ok_of_all seats seatIds [] hall)]

/-- The first id that does not verify is looked up to a seat that is not
available: the call fails with the "is not available" reason for that id. -/
theorem BookingService.reserveSeats_first_unavailable (svc : BookingService) (env : Env)
    (theaterId movieId : Int) (customerName : String) (seats : List Seat)
    (pre : List String) (seatId : String) (post : List String) (i : Nat) (s : Seat)
    (hs : svc.seatsOf theaterId movieId = some seats)
    (hpre : ∀ x ∈ pre, ∃ i s, BookingService.findSeat seats x = some (i, s) ∧
      s.m_status = Seat.Status.Available)
    (hfind : BookingService.findSeat seats seatId = some (i, s))
    (hst : s.m_status ≠ Seat.Status.Available) :
    svc.reserveSeats env theaterId movieId (pre ++ seatId :: post) customerName =
      ⟨false, svc, [Signal.reservationFailed ("Seat " ++ seatId ++ " is not available")]⟩ := by
  obtain ⟨ts, h₁, h₂⟩ := (BookingService.seatsOf_eq_some_iff svc theaterId movieId seats).mp hs
  apply BookingService.reserveSeats_verify_error svc env theaterId movieId _ customerName
    ts seats _ h₁ h₂
  rw [BookingService.verifySeats_append seats pre _ [] hpre]
  simp [BookingService.verifySeats, hfind, Seat.isAvailable, hst,
    BookingService.seatNotAvailableMsg]

/-- The first id that does not verify has no seat in the collection: the call
fails with the "not found" reason for that id. -/
theorem BookingService.reserveSeats_first_not_found (svc : BookingService) (env : Env)
    (theaterId movieId : Int) (customerName : String) (seats : List Seat)
    (pre : List String) (seatId : String) (post : List String)
    (hs : svc.seatsOf theaterId movieId = some seats)
    (hpre : ∀ x ∈ pre, ∃ i s, BookingService.findSeat seats x = some (i, s) ∧
      s.m_status = Seat.Status.Available)
    (hfind : BookingService.findSeat seats seatId = none) :
    svc.reserveSeats env theaterId movieId (pre ++ seatId :: post) customerName =
      ⟨false, svc, [Signal.reservationFailed ("Seat " ++ seatId ++ " not found")]⟩ := by
  obtain ⟨ts, h₁, h₂⟩ := (BookingService.seatsOf_eq_some_iff svc theaterId movieId seats).mp hs
  apply BookingService.reserveSeats_verify_error svc env theaterId movieId _ customerName
    ts seats _ h₁ h₂
  rw [BookingService.verifySeats_append seats pre _ [] hpre]
  simp [BookingService.verifySeats, hfind, BookingService.seatNotFoundMsg]

/-- With pairwise distinct ids, a seat of the collection with a given id and a
property is what the lookup of the id returns. -/
theorem BookingService.findSeat_of_exists_nodup {seats : List Seat}
    (hnd : (seats.map Seat.m_id).Nodup) {seatId : String} {P : Seat → Prop}
    (h : ∃ s ∈ seats, s.m_id = seatId ∧ P s) :
    ∃ i s, BookingService.findSeat seats seatId = some (i, s) ∧ P s := by
  obtain ⟨s, hs, hid, hP⟩ := h
  obtain ⟨i, hfind⟩ := BookingService.findSeat_of_mem_nodup hnd hs
  rw [hid] at hfind
  exact ⟨i, s, hfind, hP⟩

theorem BookingService.incrInt32_ne (x : Int) : BookingService.incrInt32 x ≠ x := by
  unfold BookingService.incrInt32
  omega

/-! ## Calls for one seat, one after the other -/

theorem BookingService.getAvailableSeats_eq (svc : BookingService) (theaterId movieId : Int) :
    svc.getAvailableSeats theaterId movieId =
      match svc.seatsOf theaterId movieId with
      | none => []
      | some seats => seats.filter (fun seat => seat.isAvailable) := by
  unfold BookingService.getAvailableSeats BookingService.seatsOf
  cases QMap.find svc.m_theaterSeats theaterId with
  | none => rfl
  | some ts => cases QMap.find ts.movieSeats movieId <;> rfl

theorem BookingService.setStatusAt_reserved_filter_length (seats : List Seat) (i : Nat)
    (s : Seat) (hget : seats[i]? = some s) (hav : s.m_status = Seat.Status.Available) :
    ((BookingService.setStatusAt seats i Seat.Status.Reserved).filter
        (fun seat => seat.isAvailable)).length + 1 =
      (seats.filter (fun seat => seat.isAvailable)).length := by
  induction seats generalizing i with
  | nil => simp at hget
  | cons t rest ih =>
    cases i with
    | zero =>
      simp at hget
      subst hget
      simp [BookingService.setStatusAt, Seat.setStatus_fst, Seat.isAvailable, hav]
    | succ i =>
      simp at hget
      have := ih i hget
      by_cases ht : t.isAvailable = true
      · simp [BookingService.setStatusAt, ht]
        omega
      · simp [BookingService.setStatusAt, ht]
        omega

/-- Calls for a seat that is not available all fail, with the same reason, and
leave the service as it is. -/
theorem BookingService.reserveInTurn_unavailable (svc : BookingService)
    (theaterId movieId : Int) (seatId : String) (seats : List Seat) (i : Nat) (s : Seat)
    (hs : svc.seatsOf theaterId movieId = some seats)
    (hfind : BookingService.findSeat seats seatId = some (i, s))
    (hst : s.m_status ≠ Seat.Status.Available) (calls : List (Env × String)) :
    svc.reserveInTurn theaterId movieId [seatId] calls =
      (svc, List.replicate calls.length
        ⟨false, svc, [Signal.reservationFailed ("Seat " ++ seatId ++ " is not available")]⟩) := by
  induction calls with
  | nil => rfl
  | cons call rest ih =>
    obtain ⟨env, customerName⟩ := call
    have hr := BookingService.reserveSeats_first_unavailable svc env theaterId movieId
      customerName seats [] seatId [] i s hs (fun x hx => absurd hx (List.not_mem_nil x))
      hfind hst
    simp only [List.nil_append] at hr
    simp only [BookingService.reserveInTurn, hr, ih, List.length_cons, List.replicate_succ]

/-- Any number of calls for the same single available seat, run one after the
other in any order: the first call succeeds, every later call fails with the
"is not available" reason, and one seat fewer is available at the end. -/
theorem BookingService.reserveInTurn_same_seat (svc : BookingService)
    (theaterId movieId : Int) (seatId : String) (seats : List Seat) (i : Nat) (s : Seat)
    (hs : svc.seatsOf theaterId movieId = some seats)
    (hfind : BookingService.findSeat seats seatId = some (i, s))
    (hav : s.m_status = Seat.Status.Available) (calls : List (Env × String))
    (hne : calls ≠ []) :
    (((svc.reserveInTurn theaterId movieId [seatId] calls).2.filter
        (fun r => r.ok)).length = 1) ∧
    (((svc.reserveInTurn theaterId movieId [seatId] calls).2.filter
        (fun r => !r.ok)).length = calls.length - 1) ∧
    (∀ r ∈ (svc.reserveInTurn theaterId movieId [seatId] calls).2, r.ok = false →
      r.signals = [Signal.reservationFailed ("Seat " ++ seatId ++ " is not available")]) ∧
    ((svc.reserveInTurn theaterId movieId [seatId] calls).1.getAvailableSeats
        theaterId movieId).length + 1 =
      (svc.getAvailableSeats theaterId movieId).length := by
  cases calls with
  | nil => exact absurd rfl hne
  | cons call rest =>
    obtain ⟨env, customerName⟩ := call
    have hall : ∀ x ∈ [seatId], ∃ i s, BookingService.findSeat seats x = some (i, s) ∧
        s.m_status = Seat.Status.Available := by
      intro x hx
      rw [List.mem_singleton] at hx
      subst hx
      exact ⟨i, s, hfind, hav⟩
    have hok := BookingService.reserveSeats_ok_of_all svc env theaterId movieId [seatId]
      customerName seats hs hall
    obtain ⟨ts, h₁, h₂⟩ :=
      (BookingService.seatsOf_eq_some_iff svc theaterId movieId seats).mp hs
    have hptr : BookingService.pointersOf seats [seatId] = [i] := by
      simp [BookingService.pointersOf, hfind]
    have hver := BookingService.verifySeats_ok_of_all seats [seatId] [] hall
    rw [hptr] at hver
    have hr := BookingService.reserveSeats_verify_ok svc env theaterId movieId [seatId]
      customerName ts seats _ h₁ h₂ hver
    have hs' : (svc.reserveSeats env theaterId movieId [seatId] customerName).svc.seatsOf
        theaterId movieId = some (BookingService.reserveAll seats [i]) := by
      rw [BookingService.seatsOf_storeSeats svc _ theaterId movieId ts seats _ h₁ h₂
        (by rw [hr]) theaterId movieId]
      simp
    have hfind' : BookingService.findSeat (BookingService.reserveAll seats [i]) seatId =
        some (i, ⟨s.m_id, Seat.Status.Reserved⟩) := by
      have := BookingService.findSeat_reserveAll_of_mem seats [seatId] seatId
        (List.mem_singleton.mpr rfl) i s hfind
      rwa [hptr] at this
    have hrest := BookingService.reserveInTurn_unavailable
      (svc.reserveSeats env theaterId movieId [seatId] customerName).svc theaterId movieId
      seatId _ i _ hs' hfind' (by simp) rest
    have hrun : svc.reserveInTurn theaterId movieId [seatId] ((env, customerName) :: rest) =
        ((svc.reserveSeats env theaterId movieId [seatId] customerName).svc,
          svc.reserveSeats env theaterId movieId [seatId] customerName ::
            List.replicate rest.length
              ⟨false, (svc.reserveSeats env theaterId movieId [seatId] customerName).svc,
                [Signal.reservationFailed ("Seat " ++ seatId ++ " is not available")]⟩) := by
      simp only [BookingService.reserveInTurn, hrest]
    rw [hrun]
    refine ⟨?_, ?_, ?_, ?_⟩
    · simp [hok, List.filter_replicate]
    · simp [hok, List.filter_replicate]
    · intro r hr' hfalse
      simp only [List.mem_cons] at hr'
      rcases hr' with rfl | hr'
      · rw [hok] at hfalse
        cases hfalse
      · rw [List.eq_of_mem_replicate hr']
    · simp only
      rw [BookingService.getAvailableSeats_eq, BookingService.getAvailableSeats_eq, hs', hs]
      have hget := (BookingService.findSeat_some hfind).1
      simpa [BookingService.reserveAll] using
        BookingService.setStatusAt_reserved_filter_length seats i s hget hav

/-! ## The written collection, seat by seat -/

theorem BookingService.setStatusAt_getElem? (seats : List Seat) (i : Nat)
    (status : Seat.Status) (j : Nat) :
    (BookingService.setStatusAt seats i status)[j]? =
      (seats[j]?).map (fun s => if j = i then ⟨s.m_id, status⟩ else s) := by
  induction seats generalizing i j with
  | nil => simp [BookingService.setStatusAt]
  | cons t rest ih =>
    cases i with
    | zero =>
      cases j with
      | zero => simp [BookingService.setStatusAt, Seat.setStatus_fst]
      | succ j => simp [BookingService.setStatusAt]
    | succ i =>
      cases j with
      | zero => simp [BookingService.setStatusAt]
      | succ j => simp [BookingService.setStatusAt, ih]

theorem BookingService.reserveAll_getElem? (seats : List Seat) (ptrs : List Nat) (j : Nat) :
    (BookingService.reserveAll seats ptrs)[j]? =
      (seats[j]?).map (fun s => if j ∈ ptrs then ⟨s.m_id, Seat.Status.Reserved⟩ else s) := by
  induction ptrs generalizing seats with
  | nil => simp [BookingService.reserveAll]
  | cons i rest ih =>
    have hstep : BookingService.reserveAll seats (i :: rest) =
        BookingService.reserveAll (BookingService.setStatusAt seats i Seat.Status.Reserved) rest := by
      simp [BookingService.reserveAll]
    rw [hstep, ih, BookingService.setStatusAt_getElem?]
    cases seats[j]? with
    | none => rfl
    | some s =>
      by_cases hji : j = i
      · by_cases hjr : j ∈ rest <;> simp [hji, hjr]
      · by_cases hjr : j ∈ rest <;> simp [hji, hjr]

/-- With pairwise distinct ids, the seat at a position is what the lookup of
its id returns, with that position. -/
theorem BookingService.findSeat_of_getElem?_nodup {seats : List Seat}
    (hnd : (seats.map Seat.m_id).Nodup) {j : Nat} {s : Seat} (hget : seats[j]? = some s) :
    BookingService.findSeat seats s.m_id = some (j, s) := by
  induction seats generalizing j with
  | nil => simp at hget
  | cons t rest ih =>
    cases j with
    | zero =>
      simp at hget
      subst hget
      simp [BookingService.findSeat, Seat.getId]
    | succ j =>
      simp at hget
      rw [List.map_cons, List.nodup_cons] at hnd
      have hmem : s ∈ rest := List.getElem?_mem hget
      have hne : ¬ t.m_id = s.m_id := by
        intro e
        exact hnd.1 (e ▸ List.mem_map_of_mem Seat.m_id hmem)
      simp [BookingService.findSeat, Seat.getId, hne, ih hnd.2 hget]

/-- With pairwise distinct ids, a position is among the verified pointers
exactly when the id of its seat is requested. -/
theorem BookingService.mem_pointersOf_iff_nodup {seats : List Seat}
    (hnd : (seats.map Seat.m_id).Nodup) (seatIds : List String) {j : Nat} {s : Seat}
    (hget : seats[j]? = some s) :
    j ∈ BookingService.pointersOf seats seatIds ↔ s.m_id ∈ seatIds := by
  rw [BookingService.mem_pointersOf]
  constructor
  · rintro ⟨seatId, hmem, s₀, hfind⟩
    have h₀ := BookingService.findSeat_some hfind
    rw [hget] at h₀
    have : s = s₀ := Option.some.inj h₀.1
    rw [this, h₀.2]
    exact hmem
  · intro hmem
    exact ⟨s.m_id, hmem, s, BookingService.findSeat_of_getElem?_nodup hnd hget⟩

/-- With pairwise distinct ids, the commit loop marks exactly the seats whose
id is requested. -/
theorem BookingService.reserveAll_eq_map (seats : List Seat)
    (hnd : (seats.map Seat.m_id).Nodup) (seatIds : List String) :
    BookingService.reserveAll seats (BookingService.pointersOf seats seatIds) =
      seats.map (BookingService.markReserved seatIds) := by
  apply List.ext_getElem?
  intro j
  rw [BookingService.reserveAll_getElem?, List.getElem?_map]
  cases hget : seats[j]? with
  | none => rfl
  | some s =>
    have hiff := BookingService.mem_pointersOf_iff_nodup hnd seatIds hget
    by_cases hmem : s.m_id ∈ seatIds
    · simp [BookingService.markReserved, hmem, hiff.mpr hmem]
    · have hnot : j ∉ BookingService.pointersOf seats seatIds := fun h => hmem (hiff.mp h)
      simp [BookingService.markReserved, hmem, hnot]

/-- The available seats of a marked collection are the available seats whose
id is not requested. -/
theorem BookingService.filter_markReserved (seats : List Seat) (seatIds : List String) :
    (seats.map (BookingService.markReserved seatIds)).filter (fun seat => seat.isAvailable) =
      (seats.filter (fun seat => seat.isAvailable)).filter
        (fun seat => decide (seat.m_id ∉ seatIds)) := by
  induction seats with
  | nil => rfl
  | cons t rest ih =>
    simp only [List.map_cons, List.filter_cons]
    by_cases hav : t.m_status = Seat.Status.Available <;>
      by_cases hmem : t.m_id ∈ seatIds <;>
      simp [BookingService.markReserved, Seat.isAvailable, hav, hmem] <;>
      simpa [Seat.isAvailable] using ih

/-- Removing from a list of seats with pairwise distinct ids the seats named
by a duplicate-free list of ids, all of them ids of the list, shortens it by
the number of ids. -/
theorem BookingService.filter_not_mem_length (l : List Seat)
    (hnd : (l.map Seat.m_id).Nodup) (seatIds : List String) (hS : seatIds.Nodup)
    (hall : ∀ seatId ∈ seatIds, ∃ s ∈ l, s.m_id = seatId) :
    (l.filter (fun seat => decide (seat.m_id ∉ seatIds))).length + seatIds.length =
      l.length := by
  have hsplit := List.length_eq_length_filter_add (l := l)
    (fun seat => decide (seat.m_id ∈ seatIds))
  have hsub : ((l.filter (fun seat => decide (seat.m_id ∈ seatIds))).map Seat.m_id).Sublist
      (l.map Seat.m_id) := (List.filter_sublist l).map Seat.m_id
  have hperm : ((l.filter (fun seat => decide (seat.m_id ∈ seatIds))).map Seat.m_id).Perm
      seatIds := by
    rw [List.perm_ext_iff_of_nodup (hsub.nodup hnd) hS]
    intro x
    constructor
    · intro hx
      obtain ⟨s, hs, rfl⟩ := List.mem_map.mp hx
      simpa using (List.mem_filter.mp hs).2
    · intro hx
      obtain ⟨s, hs, hid⟩ := hall x hx
      exact List.mem_map.mpr ⟨s, List.mem_filter.mpr ⟨hs, by simpa [hid] using hx⟩, hid⟩
  have hlen := hperm.length_eq
  rw [List.length_map] at hlen
  have hnot : (l.filter (fun seat => decide (seat.m_id ∉ seatIds))) =
      (l.filter (fun seat => !decide (seat.m_id ∈ seatIds))) := by
    congr 1
    funext seat
    simp
  rw [hnot]
  omega

/-- A successful call in a state whose collection has pairwise distinct ids:
the collection afterwards is the collection before with the requested seats
marked, and the available seats afterwards are the available seats before
without the requested ones. -/
theorem BookingService.reserveSeats_ok_marked (svc : BookingService) (env : Env)
    (theaterId movieId : Int) (seatIds : List String) (customerName : String)
    (seats : List Seat) (hs : svc.seatsOf theaterId movieId = some seats)
    (hnd : (seats.map Seat.m_id).Nodup)
    (hok : (svc.reserveSeats env theaterId movieId seatIds customerName).ok = true) :
    (svc.reserveSeats env theaterId movieId seatIds customerName).svc.seatsOf
        theaterId movieId = some (seats.map (BookingService.markReserved seatIds)) ∧
    (svc.reserveSeats env theaterId movieId seatIds customerName).svc.getAvailableSeats
        theaterId movieId =
      (svc.getAvailableSeats theaterId movieId).filter
        (fun seat => decide (seat.m_id ∉ seatIds)) := by
  obtain ⟨ts, seats₀, h₁, h₂, h₃⟩ :=
    BookingService.reserveSeats_ok_shape svc env theaterId movieId seatIds customerName hok
  have hs₀ : svc.seatsOf theaterId movieId = some seats₀ :=
    (BookingService.seatsOf_eq_some_iff svc theaterId movieId seats₀).mpr ⟨ts, h₁, h₂⟩
  have heq : seats₀ = seats := by
    rw [hs] at hs₀
    exact (Option.some.inj hs₀).symm
  rw [heq] at h₂ h₃
  have hr := BookingService.reserveSeats_verify_ok svc env theaterId movieId seatIds
    customerName ts seats _ h₁ h₂ h₃
  have hs' : (svc.reserveSeats env theaterId movieId seatIds customerName).svc.seatsOf
      theaterId movieId = some (seats.map (BookingService.markReserved seatIds)) := by
    rw [BookingService.seatsOf_storeSeats svc _ theaterId movieId ts seats _ h₁ h₂
      (by rw [hr]) theaterId movieId, BookingService.reserveAll_eq_map seats hnd]
    simp
  refine ⟨hs', ?_⟩
  rw [BookingService.getAvailableSeats_eq, BookingService.getAvailableSeats_eq, hs', hs]
  exact BookingService.filter_markReserved seats seatIds

/-- The decrease of the number of available seats by a successful call for a
duplicate-free list of ids, in a state whose collection has pairwise distinct
ids. -/
theorem BookingService.reserveSeats_ok_length (svc : BookingService) (env : Env)
    (theaterId movieId : Int) (seatIds : List String) (customerName : String)
    (seats : List Seat) (hs : svc.seatsOf theaterId movieId = some seats)
    (hnd : (seats.map Seat.m_id).Nodup) (hS : seatIds.Nodup)
    (hok : (svc.reserveSeats env theaterId movieId seatIds customerName).ok = true) :
    ((svc.reserveSeats env theaterId movieId seatIds customerName).svc.getAvailableSeats
        theaterId movieId).length + seatIds.length =
      (svc.getAvailableSeats theaterId movieId).length := by
  rw [(BookingService.reserveSeats_ok_marked svc env theaterId movieId seatIds customerName
    seats hs hnd hok).2]
  obtain ⟨seats₀, _, hs₀, _, hlook, _, _⟩ :=
    BookingService.reserveSeats_ok_after svc env theaterId movieId seatIds customerName hok
  have heq : seats₀ = seats := by
    rw [hs] at hs₀
    exact (Option.some.inj hs₀).symm
  rw [heq] at hlook
  rw [BookingService.getAvailableSeats_eq, hs]
  refine BookingService.filter_not_mem_length
    (seats.filter (fun seat => seat.isAvailable))
    (((List.filter_sublist seats).map Seat.m_id).nodup hnd) seatIds hS ?_
  intro seatId hmem
  obtain ⟨i, s, hfind, hav, _⟩ := hlook seatId hmem
  have hm := BookingService.findSeat_mem hfind
  exact ⟨s, List.mem_filter.mpr ⟨hm.1, by simp [Seat.isAvailable, hav]⟩, hm.2⟩

/-! ## Calls for disjoint seats, one after the other -/

theorem BookingService.markReserved_of_not_mem (seatIds : List String) (s : Seat)
    (h : s.m_id ∉ seatIds) : BookingService.markReserved seatIds s = s := by
  simp [BookingService.markReserved, h]

/-- Requests with duplicate-free, pairwise disjoint id lists that name only
available seats of one collection of a reachable state, run one after the
other: every call succeeds and the number of available seats goes down by the
total number of ids. -/
theorem BookingService.reserveEach_disjoint (theaterId movieId : Int)
    (reqs : List (Env × List String × String)) :
    ∀ (svc : BookingService) (seats : List Seat), BookingService.Reachable svc →
      svc.seatsOf theaterId movieId = some seats →
      (∀ r ∈ reqs, r.2.1.Nodup) →
      reqs.Pairwise (fun a b => ∀ seatId ∈ a.2.1, seatId ∉ b.2.1) →
      (∀ r ∈ reqs, ∀ seatId ∈ r.2.1, ∃ s ∈ seats, s.m_id = seatId ∧
        s.m_status = Seat.Status.Available) →
      (∀ o ∈ (svc.reserveEach theaterId movieId reqs).2, o.ok = true) ∧
      (svc.reserveEach theaterId movieId reqs).2.length = reqs.length ∧
      ((svc.reserveEach theaterId movieId reqs).1.getAvailableSeats theaterId movieId).length +
          (reqs.map (fun r => r.2.1.length)).sum =
        (svc.getAvailableSeats theaterId movieId).length := by
  induction reqs with
  | nil =>
    intro svc seats _ _ _ _ _
    simp [BookingService.reserveEach]
  | cons req rest ih =>
    intro svc seats hreach hs hnodup hpair hav
    obtain ⟨env, seatIds, customerName⟩ := req
    have hnd := hreach.nodup_ids hs
    have hok : (svc.reserveSeats env theaterId movieId seatIds customerName).ok = true :=
      BookingService.reserveSeats_ok_of_all svc env theaterId movieId seatIds customerName
        seats hs (fun seatId hmem => BookingService.findSeat_of_exists_nodup hnd
          (hav (env, seatIds, customerName) (List.mem_cons_self _ _) seatId hmem))
    have hmark := BookingService.reserveSeats_ok_marked svc env theaterId movieId seatIds
      customerName seats hs hnd hok
    have hlen := BookingService.reserveSeats_ok_length svc env theaterId movieId seatIds
      customerName seats hs hnd (hnodup (env, seatIds, customerName) (List.mem_cons_self _ _))
      hok
    rw [List.pairwise_cons] at hpair
    have hrest := ih (svc.reserveSeats env theaterId movieId seatIds customerName).svc
      (seats.map (BookingService.markReserved seatIds))
      (BookingService.Reachable.reserve svc env theaterId movieId seatIds customerName hreach)
      hmark.1 (fun r hr => hnodup r (List.mem_cons_of_mem _ hr)) hpair.2
      (by
        intro r hr seatId hmem
        obtain ⟨s, hsmem, hid, hst⟩ := hav r (List.mem_cons_of_mem _ hr) seatId hmem
        have hnot : s.m_id ∉ seatIds := by
          intro hin
          rw [hid] at hin
          exact hpair.1 r hr seatId hin hmem
        refine ⟨s, ?_, hid, hst⟩
        exact List.mem_map.mpr ⟨s, hsmem, BookingService.markReserved_of_not_mem seatIds s hnot⟩)
    obtain ⟨hall, hcount, hsum⟩ := hrest
    refine ⟨?_, ?_, ?_⟩
    · intro o ho
      simp only [BookingService.reserveEach, List.mem_cons] at ho
      rcases ho with rfl | ho
      · exact hok
      · exact hall o ho
    · simp only [BookingService.reserveEach, List.length_cons, hcount]
    · simp only [BookingService.reserveEach, List.map_cons, List.sum_cons]
      omega

/-! ## Booking ids -/

theorem BookingService.incrInt32_toInt32 (n : Int) :
    BookingService.incrInt32 (BookingService.toInt32 n) = BookingService.toInt32 (n + 1) := by
  unfold BookingService.incrInt32 BookingService.toInt32
  omega

theorem BookingService.toInt32_of_lt (n : Int) (h₀ : 0 ≤ n) (h₁ : n < 2 ^ 31) :
    BookingService.toInt32 n = n := by
  unfold BookingService.toInt32
  omega

/-- In a reachable state the counter and the ids of the ledger are determined
by the positions: the booking at position `k` has the `int` value of `k + 1`,
and the next id is the `int` value of the ledger length plus one. -/
theorem BookingService.Reachable.booking_ids {svc : BookingService}
    (h : BookingService.Reachable svc) :
    svc.m_nextBookingId = BookingService.toInt32 ((svc.m_bookingData.length : Int) + 1) ∧
    ∀ (k : Nat) (b : BookingData), svc.m_bookingData[k]? = some b →
      b.id = BookingService.toInt32 ((k : Int) + 1) := by
  induction h with
  | fresh =>
    have hnil : BookingService.new.m_bookingData = [] := by decide
    have hnext : BookingService.new.m_nextBookingId = 1 := by decide
    rw [hnil, hnext]
    refine ⟨?_, ?_⟩
    · rw [BookingService.toInt32_of_lt] <;> simp
    · intro k b hk
      simp at hk
  | reserve svc env theaterId movieId seatIds customerName _ ih =>
    cases hok : (svc.reserveSeats env theaterId movieId seatIds customerName).ok with
    | false =>
      obtain ⟨reason, hr⟩ :=
        BookingService.reserveSeats_fail_shape svc env theaterId movieId seatIds customerName hok
      rw [hr]
      exact ih
    | true =>
      obtain ⟨_, _, _, _, _, hledger, hnext⟩ :=
        BookingService.reserveSeats_ok_after svc env theaterId movieId seatIds customerName hok
      rw [hledger, hnext]
      refine ⟨?_, ?_⟩
      · rw [ih.1, BookingService.incrInt32_toInt32]
        simp
      · intro k b hk
        rw [List.getElem?_append] at hk
        split at hk
        · exact ih.2 k b hk
        · rename_i hge
          have hle : svc.m_bookingData.length ≤ k := Nat.le_of_not_lt hge
          cases hkk : k - svc.m_bookingData.length with
          | zero =>
            rw [hkk] at hk
            simp at hk
            have hkeq : k = svc.m_bookingData.length := by omega
            rw [← hk, hkeq]
            exact ih.1
          | succ m =>
            rw [hkk] at hk
            simp at hk

/-- An empty request on an existing collection: the call succeeds, the seat map
stays as it is and the ledger grows by one booking. -/
theorem BookingService.reserveSeats_nil (svc : BookingService) (env : Env)
    (theaterId movieId : Int) (customerName : String) (seats : List Seat)
    (hs : svc.seatsOf theaterId movieId = some seats) :
    (svc.reserveSeats env theaterId movieId [] customerName).ok = true ∧
    (svc.reserveSeats env theaterId movieId [] customerName).svc.m_theaterSeats =
      svc.m_theaterSeats ∧
    (svc.reserveSeats env theaterId movieId [] customerName).svc.m_bookingData =
      svc.m_bookingData ++
        [⟨svc.m_nextBookingId, customerName, movieId, theaterId, [], env.bookingTime⟩] := by
  obtain ⟨ts, h₁, h₂⟩ := (BookingService.seatsOf_eq_some_iff svc theaterId movieId seats).mp hs
  have hr := BookingService.reserveSeats_verify_ok svc env theaterId movieId []
    customerName ts seats [] h₁ h₂ rfl
  refine ⟨by rw [hr], ?_, by rw [hr]⟩
  rw [hr]
  simp only [BookingService.storeSeats, BookingService.reserveAll, List.foldl_nil]
  apply QMap.modify_eq_self _ _ _ ts h₁
  rw [QMap.modify_eq_self _ _ _ seats h₂ rfl]

theorem BookingService.emptyRuns_reachable (n : Nat) :
    BookingService.Reachable (BookingService.emptyRuns n) := by
  induction n with
  | zero => exact BookingService.Reachable.fresh
  | succ n ih => exact BookingService.Reachable.reserve _ _ _ _ _ _ ih

theorem BookingService.emptyRuns_state (n : Nat) :
    (BookingService.emptyRuns n).m_theaterSeats = BookingService.new.m_theaterSeats ∧
    (BookingService.emptyRuns n).m_bookingData.length = n := by
  induction n with
  | zero => exact ⟨rfl, by decide⟩
  | succ n ih =>
    have hs : (BookingService.emptyRuns n).seatsOf 1 1 = BookingService.new.seatsOf 1 1 := by
      unfold BookingService.seatsOf
      rw [ih.1]
    have hnew : BookingService.new.seatsOf 1 1 =
        some ((List.range 20).map (fun k => ⟨"A" ++ toString (k + 1), Seat.Status.Available⟩)) := by
      decide
    have hnil := BookingService.reserveSeats_nil (BookingService.emptyRuns n) ⟨0, 0, false⟩ 1 1
      "nobody" _ (hs.trans hnew)
    refine ⟨?_, ?_⟩
    · show ((BookingService.emptyRuns n).reserveSeats ⟨0, 0, false⟩ 1 1 []
        "nobody").svc.m_theaterSeats = _
      rw [hnil.2.1, ih.1]
    · show ((BookingService.emptyRuns n).reserveSeats ⟨0, 0, false⟩ 1 1 []
        "nobody").svc.m_bookingData.length = _
      rw [hnil.2.2, List.length_append, ih.2]
      rfl

/-- The id of the booking at position `k` after `n` empty runs. -/
theorem BookingService.emptyRuns_id (n k : Nat) (hk : k < n) :
    ∃ b : BookingData, (BookingService.emptyRuns n).m_bookingData[k]? = some b ∧
      b.id = BookingService.toInt32 ((k : Int) + 1) := by
  have hlen := (BookingService.emptyRuns_state n).2
  have hk' : k < (BookingService.emptyRuns n).m_bookingData.length := by rw [hlen]; exact hk
  refine ⟨(BookingService.emptyRuns n).m_bookingData[k], List.getElem?_eq_getElem hk', ?_⟩
  exact (BookingService.emptyRuns_reachable n).booking_ids.2 k _ (List.getElem?_eq_getElem hk')

/-! ## One call, seat by seat -/

/-- What one call of `reserveSeats` does to any collection, position by
position: a collection exists after the call exactly when it existed before,
and every position either holds what it held, or held an `Available` seat
whose id is requested in this collection by a successful call and now holds
that seat with status `Reserved`. -/
theorem BookingService.reserveSeats_seats_step (svc : BookingService) (env : Env)
    (theaterId movieId : Int) (seatIds : List String) (customerName : String)
    (t₂ m₂ : Int) :
    (svc.seatsOf t₂ m₂ = none ∧
      (svc.reserveSeats env theaterId movieId seatIds customerName).svc.seatsOf t₂ m₂ = none) ∨
    ∃ seats seats',
      svc.seatsOf t₂ m₂ = some seats ∧
      (svc.reserveSeats env theaterId movieId seatIds customerName).svc.seatsOf t₂ m₂ =
        some seats' ∧
      ∀ i : Nat, seats'[i]? = seats[i]? ∨
        ∃ s, seats[i]? = some s ∧ s.m_status = Seat.Status.Available ∧
          seats'[i]? = some ⟨s.m_id, Seat.Status.Reserved⟩ ∧
          t₂ = theaterId ∧ m₂ = movieId ∧ s.m_id ∈ seatIds ∧
          (svc.reserveSeats env theaterId movieId seatIds customerName).ok = true := by
  have hsame : (svc.reserveSeats env theaterId movieId seatIds customerName).svc.seatsOf t₂ m₂ =
      svc.seatsOf t₂ m₂ →
      (svc.seatsOf t₂ m₂ = none ∧
        (svc.reserveSeats env theaterId movieId seatIds customerName).svc.seatsOf t₂ m₂ = none) ∨
      ∃ seats seats',
        svc.seatsOf t₂ m₂ = some seats ∧
        (svc.reserveSeats env theaterId movieId seatIds customerName).svc.seatsOf t₂ m₂ =
          some seats' ∧
        ∀ i : Nat, seats'[i]? = seats[i]? ∨
          ∃ s, seats[i]? = some s ∧ s.m_status = Seat.Status.Available ∧
            seats'[i]? = some ⟨s.m_id, Seat.Status.Reserved⟩ ∧
            t₂ = theaterId ∧ m₂ = movieId ∧ s.m_id ∈ seatIds ∧
            (svc.reserveSeats env theaterId movieId seatIds customerName).ok = true := by
    intro heq
    cases hs : svc.seatsOf t₂ m₂ with
    | none => exact Or.inl ⟨rfl, by rw [heq, hs]⟩
    | some seats => exact Or.inr ⟨seats, seats, rfl, by rw [heq, hs], fun i => Or.inl rfl⟩
  cases hok : (svc.reserveSeats env theaterId movieId seatIds customerName).ok with
  | false =>
    obtain ⟨reason, hr⟩ :=
      BookingService.reserveSeats_fail_shape svc env theaterId movieId seatIds customerName hok
    rw [hok] at hsame
    exact hsame (by rw [hr])
  | true =>
    rw [hok] at hsame
    obtain ⟨ts, seats, h₁, h₂, h₃⟩ :=
      BookingService.reserveSeats_ok_shape svc env theaterId movieId seatIds customerName hok
    have hr := BookingService.reserveSeats_verify_ok svc env theaterId movieId seatIds
      customerName ts seats _ h₁ h₂ h₃
    have hall := BookingService.verifySeats_all_of_ok seats seatIds [] _ h₃
    have hafter := BookingService.seatsOf_storeSeats svc
      (svc.reserveSeats env theaterId movieId seatIds customerName).svc theaterId movieId ts
      seats (BookingService.reserveAll seats (BookingService.pointersOf seats seatIds)) h₁ h₂
      (by rw [hr]) t₂ m₂
    by_cases hpair : t₂ = theaterId ∧ m₂ = movieId
    · rw [if_pos hpair] at hafter
      have hs : svc.seatsOf t₂ m₂ = some seats := by
        rw [hpair.1, hpair.2]
        exact (BookingService.seatsOf_eq_some_iff svc theaterId movieId seats).mpr ⟨ts, h₁, h₂⟩
      refine Or.inr ⟨seats, _, hs, hafter, ?_⟩
      intro i
      rw [BookingService.reserveAll_getElem?]
      cases hget : seats[i]? with
      | none => exact Or.inl rfl
      | some s =>
        by_cases hi : i ∈ BookingService.pointersOf seats seatIds
        · obtain ⟨seatId, hmem, s₀, hfind⟩ := BookingService.mem_pointersOf.mp hi
          have h₀ := BookingService.findSeat_some hfind
          rw [hget] at h₀
          have hss : s = s₀ := Option.some.inj h₀.1
          obtain ⟨i', s', hfind', hav⟩ := hall seatId hmem
          rw [hfind] at hfind'
          have hs' : s₀ = s' := (Prod.mk.inj (Option.some.inj hfind')).2
          refine Or.inr ⟨s, rfl, ?_, ?_, hpair.1, hpair.2, ?_, rfl⟩
          · rw [hss, hs']
            exact hav
          · simp [hi]
          · rw [hss, h₀.2]
            exact hmem
        · exact Or.inl (by simp [hi])
    · rw [if_neg hpair] at hafter
      exact hsame hafter

theorem BookingService.new_all_available (theaterId movieId : Int) (seats : List Seat)
    (hs : BookingService.new.seatsOf theaterId movieId = some seats) :
    ∀ s ∈ seats, s.m_status = Seat.Status.Available := by
  obtain ⟨ts, h₁, h₂⟩ :=
    (BookingService.seatsOf_eq_some_iff BookingService.new theaterId movieId seats).mp hs
  have hm₁ := QMap.mem_of_find _ _ _ h₁
  have hm₂ := QMap.mem_of_find _ _ _ h₂
  have hall : ∀ p ∈ BookingService.new.m_theaterSeats, ∀ q ∈ p.2.movieSeats, ∀ s ∈ q.2,
      s.m_status = Seat.Status.Available := by
    decide
  exact hall _ hm₁ _ hm₂

/-- In a reachable state no seat has a status other than `Available` and
`Reserved`. -/
theorem BookingService.Reachable.status_cases {svc : BookingService}
    (h : BookingService.Reachable svc) :
    ∀ (theaterId movieId : Int) (seats : List Seat),
      svc.seatsOf theaterId movieId = some seats →
      ∀ s ∈ seats, s.m_status = Seat.Status.Available ∨ s.m_status = Seat.Status.Reserved := by
  induction h with
  | fresh =>
    intro theaterId movieId seats hs s hmem
    exact Or.inl (BookingService.new_all_available theaterId movieId seats hs s hmem)
  | reserve svc env theaterId movieId seatIds customerName _ ih =>
    intro t₂ m₂ seats' hs' s' hmem
    rcases BookingService.reserveSeats_seats_step svc env theaterId movieId seatIds
      customerName t₂ m₂ with ⟨_, hnone⟩ | ⟨seats, seats₁, hs, hs₁, hpos⟩
    · rw [hnone] at hs'
      cases hs'
    · rw [hs₁] at hs'
      have heq : seats₁ = seats' := Option.some.inj hs'
      rw [heq] at hpos
      obtain ⟨i, hget⟩ := List.mem_iff_getElem?.mp hmem
      rcases hpos i with hkeep | ⟨s, _, _, hnew, _⟩
      · rw [hget] at hkeep
        exact ih t₂ m₂ seats hs s' (List.getElem?_mem hkeep.symm)
      · rw [hget] at hnew
        have : s' = ⟨s.m_id, Seat.Status.Reserved⟩ := Option.some.inj hnew
        rw [this]
        exact Or.inr rfl

/-- Along further calls a position of a collection keeps its seat id, and its
status either stays or goes from `Available` to `Reserved`. -/
theorem BookingService.Steps.seat_monotone {svc later : BookingService}
    (h : BookingService.Steps svc later) :
    ∀ (theaterId movieId : Int) (seats : List Seat) (i : Nat) (s : Seat),
      svc.seatsOf theaterId movieId = some seats → seats[i]? = some s →
      ∃ seats' s', later.seatsOf theaterId movieId = some seats' ∧ seats'[i]? = some s' ∧
        s'.m_id = s.m_id ∧
        (s'.m_status = s.m_status ∨
          (s.m_status = Seat.Status.Available ∧ s'.m_status = Seat.Status.Reserved)) := by
  induction h with
  | refl =>
    intro theaterId movieId seats i s hs hget
    exact ⟨seats, s, hs, hget, rfl, Or.inl rfl⟩
  | reserve later env theaterId movieId seatIds customerName _ ih =>
    intro t₂ m₂ seats i s hs hget
    obtain ⟨seats₁, s₁, hs₁, hget₁, hid₁, hst₁⟩ := ih t₂ m₂ seats i s hs hget
    rcases BookingService.reserveSeats_seats_step later env theaterId movieId seatIds
      customerName t₂ m₂ with ⟨hnone, _⟩ | ⟨seats₂, seats₃, hs₂, hs₃, hpos⟩
    · rw [hnone] at hs₁
      cases hs₁
    · rw [hs₁] at hs₂
      have heq : seats₂ = seats₁ := (Option.some.inj hs₂).symm
      rw [heq] at hpos
      rcases hpos i with hkeep | ⟨u, hu, huav, hnew, _⟩
      · rw [hget₁] at hkeep
        exact ⟨seats₃, s₁, hs₃, hkeep, hid₁, hst₁⟩
      · rw [hget₁] at hu
        have hus : s₁ = u := Option.some.inj hu
        refine ⟨seats₃, ⟨u.m_id, Seat.Status.Reserved⟩, hs₃, hnew, ?_, ?_⟩
        · show u.m_id = s.m_id
          rw [← hus]
          exact hid₁
        · rcases hst₁ with hst | ⟨_, hres⟩
          · right
            refine ⟨?_, rfl⟩
            rw [← hst, hus]
            exact huav
          · rw [hus, huav] at hres
            cases hres

/-! ## Reserved seats and the ledger -/

theorem BookingService.reserveSeats_ledger_mono (svc : BookingService) (env : Env)
    (theaterId movieId : Int) (seatIds : List String) (customerName : String) :
    ∀ b ∈ svc.m_bookingData,
      b ∈ (svc.reserveSeats env theaterId movieId seatIds customerName).svc.m_bookingData := by
  intro b hb
  cases hok : (svc.reserveSeats env theaterId movieId seatIds customerName).ok with
  | false =>
    obtain ⟨reason, hr⟩ :=
      BookingService.reserveSeats_fail_shape svc env theaterId movieId seatIds customerName hok
    rw [hr]
    exact hb
  | true =>
    obtain ⟨_, _, _, _, _, hledger, _⟩ :=
      BookingService.reserveSeats_ok_after svc env theaterId movieId seatIds customerName hok
    rw [hledger]
    exact List.mem_append_left _ hb

theorem BookingService.Reachable.reserved_booked {svc : BookingService}
    (h : BookingService.Reachable svc) : svc.ReservedBooked := by
  induction h with
  | fresh =>
    intro theaterId movieId seats hs s hmem hst
    exact absurd (BookingService.new_all_available theaterId movieId seats hs s hmem) hst
  | reserve svc env theaterId movieId seatIds customerName _ ih =>
    intro t₂ m₂ seats' hs' s' hmem hst
    rcases BookingService.reserveSeats_seats_step svc env theaterId movieId seatIds
      customerName t₂ m₂ with ⟨_, hnone⟩ | ⟨seats, seats₁, hs, hs₁, hpos⟩
    · rw [hnone] at hs'
      cases hs'
    · rw [hs₁] at hs'
      have heq : seats₁ = seats' := Option.some.inj hs'
      rw [heq] at hpos
      obtain ⟨i, hget⟩ := List.mem_iff_getElem?.mp hmem
      rcases hpos i with hkeep | ⟨s, _, _, hnew, hT, hM, hin, hok⟩
      · rw [hget] at hkeep
        obtain ⟨b, hb, hbT, hbM, hbs⟩ :=
          ih t₂ m₂ seats hs s' (List.getElem?_mem hkeep.symm) hst
        exact ⟨b, BookingService.reserveSeats_ledger_mono svc env theaterId movieId seatIds
          customerName b hb, hbT, hbM, hbs⟩
      · rw [hget] at hnew
        have hs'eq : s' = ⟨s.m_id, Seat.Status.Reserved⟩ := Option.some.inj hnew
        obtain ⟨_, _, _, _, _, hledger, _⟩ :=
          BookingService.reserveSeats_ok_after svc env theaterId movieId seatIds customerName hok
        refine ⟨⟨svc.m_nextBookingId, customerName, movieId, theaterId, seatIds,
          env.bookingTime⟩, ?_, hT.symm, hM.symm, ?_⟩
        · rw [hledger]
          exact List.mem_append_right _ (List.mem_singleton.mpr rfl)
        · rw [hs'eq]
          exact hin

/-! ## The catalog -/

/-- A call of `reserveSeats` leaves the two catalogs as they are. -/
theorem BookingService.reserveSeats_catalog (svc : BookingService) (env : Env)
    (theaterId movieId : Int) (seatIds : List String) (customerName : String) :
    (svc.reserveSeats env theaterId movieId seatIds customerName).svc.m_theaters =
      svc.m_theaters ∧
    (svc.reserveSeats env theaterId movieId seatIds customerName).svc.m_movies =
      svc.m_movies := by
  cases hok : (svc.reserveSeats env theaterId movieId seatIds customerName).ok with
  | false =>
    obtain ⟨reason, hr⟩ :=
      BookingService.reserveSeats_fail_shape svc env theaterId movieId seatIds customerName hok
    rw [hr]
    exact ⟨rfl, rfl⟩
  | true =>
    obtain ⟨ts, seats, h₁, h₂, h₃⟩ :=
      BookingService.reserveSeats_ok_shape svc env theaterId movieId seatIds customerName hok
    rw [BookingService.reserveSeats_verify_ok svc env theaterId movieId seatIds
      customerName ts seats _ h₁ h₂ h₃]
    exact ⟨rfl, rfl⟩

theorem BookingService.Reachable.catalog {svc : BookingService}
    (h : BookingService.Reachable svc) :
    svc.m_theaters = BookingService.new.m_theaters ∧
    svc.m_movies = BookingService.new.m_movies := by
  induction h with
  | fresh => exact ⟨rfl, rfl⟩
  | reserve svc env theaterId movieId seatIds customerName _ ih =>
    have hc := BookingService.reserveSeats_catalog svc env theaterId movieId seatIds
      customerName
    exact ⟨hc.1.trans ih.1, hc.2.trans ih.2⟩

/-! ## The shape of the collections -/

theorem QMap.find_map_snd {V W : Type} (m : QMap V) (g : V → W) (k : Int) :
    QMap.find (m.map (fun p => (p.1, g p.2))) k = (QMap.find m k).map g := by
  induction m with
  | nil => rfl
  | cons p rest ih =>
    obtain ⟨k', v⟩ := p
    by_cases hk : k' = k
    · simp [QMap.find, hk]
    · simp only [List.map_cons, QMap.find, hk, if_false]
      exact ih

/-- The ids of the seats of a collection, read off `seatIdsOf`. -/
theorem BookingService.seatsOf_ids (svc : BookingService) (theaterId movieId : Int) :
    (svc.seatsOf theaterId movieId).map (List.map Seat.m_id) =
      match QMap.find svc.seatIdsOf theaterId with
      | none => none
      | some e => QMap.find e movieId := by
  unfold BookingService.seatsOf BookingService.seatIdsOf
  have h₁ := QMap.find_map_snd svc.m_theaterSeats
    (fun ts : TheaterSeats => ts.movieSeats.map (fun q => (q.1, q.2.map Seat.m_id))) theaterId
  rw [h₁]
  cases QMap.find svc.m_theaterSeats theaterId with
  | none => rfl
  | some ts =>
    simp only [Option.map_some]
    exact (QMap.find_map_snd ts.movieSeats (List.map Seat.m_id) movieId).symm

theorem BookingService.new_ids_lookup :
    ∀ theaterId ∈ ([1, 2, 3] : List Int), ∀ movieId ∈ ([1, 2, 3, 4] : List Int),
      (match QMap.find BookingService.new.seatIdsOf theaterId with
        | none => none
        | some e => QMap.find e movieId) = some BookingService.freshIds := by
  decide

theorem BookingService.new_ids_entries :
    ∀ p ∈ BookingService.new.seatIdsOf, p.1 ∈ ([1, 2, 3] : List Int) ∧
      ∀ q ∈ p.2, q.1 ∈ ([1, 2, 3, 4] : List Int) ∧ q.2 = BookingService.freshIds := by
  decide

/-- In a reachable state the collections are those of theaters 1 to 3 and
movies 1 to 4, and each holds seats with the ids `A1`, ..., `A20` in order. -/
theorem BookingService.Reachable.collection_ids {svc : BookingService}
    (h : BookingService.Reachable svc) :
    (∀ theaterId ∈ ([1, 2, 3] : List Int), ∀ movieId ∈ ([1, 2, 3, 4] : List Int),
      ∃ seats, svc.seatsOf theaterId movieId = some seats) ∧
    (∀ (theaterId movieId : Int) (seats : List Seat),
      svc.seatsOf theaterId movieId = some seats →
      theaterId ∈ ([1, 2, 3] : List Int) ∧ movieId ∈ ([1, 2, 3, 4] : List Int) ∧
        seats.map Seat.m_id = BookingService.freshIds) := by
  constructor
  · intro theaterId hT movieId hM
    have hids := BookingService.seatsOf_ids svc theaterId movieId
    rw [h.seatIdsOf_eq, BookingService.new_ids_lookup theaterId hT movieId hM] at hids
    cases hs : svc.seatsOf theaterId movieId with
    | none =>
      rw [hs] at hids
      cases hids
    | some seats => exact ⟨seats, rfl⟩
  · intro theaterId movieId seats hs
    have hids := BookingService.seatsOf_ids svc theaterId movieId
    rw [h.seatIdsOf_eq, hs] at hids
    change some (seats.map Seat.m_id) = _ at hids
    cases h₁ : QMap.find BookingService.new.seatIdsOf theaterId with
    | none =>
      rw [h₁] at hids
      cases hids
    | some e =>
      rw [h₁] at hids
      have hm₁ := QMap.mem_of_find _ _ _ h₁
      have hm₂ := QMap.mem_of_find _ _ _ hids.symm
      have hent := BookingService.new_ids_entries _ hm₁
      have hq := hent.2 _ hm₂
      exact ⟨hent.1, hq.1, hq.2⟩

/-! ## Claims -/

/-- C1 (atomicity of reserve).  For every service state and every request,
`reserveSeats` either returns `true`, and then every requested id is looked up
in the collection afterwards to a seat whose status is `Reserved` (when the ids
of the collection are pairwise distinct, every seat of the collection whose id
is requested is `Reserved`) and the ledger is the old ledger followed by exactly
one booking whose seat list is the requested list; or it returns `false`, and
then the whole service (all seat statuses, the next booking id, the ledger) is
identical to the service before the call. -/
theorem reserveSeats_atomic (svc : BookingService) (env : Env) (theaterId movieId : Int)
    (seatIds : List String) (customerName : String) :
    ((svc.reserveSeats env theaterId movieId seatIds customerName).ok = true ∧
      (∃ seats',
        (svc.reserveSeats env theaterId movieId seatIds customerName).svc.seatsOf
          theaterId movieId = some seats' ∧
        (∀ seatId ∈ seatIds, ∃ i s,
          BookingService.findSeat seats' seatId = some (i, s) ∧
            s.m_status = Seat.Status.Reserved) ∧
        ((seats'.map Seat.m_id).Nodup →
          ∀ s ∈ seats', s.m_id ∈ seatIds → s.m_status = Seat.Status.Reserved)) ∧
      (∃ b : BookingData,
        (svc.reserveSeats env theaterId movieId seatIds customerName).svc.m_bookingData =
          svc.m_bookingData ++ [b] ∧ b.seatIds = seatIds)) ∨
    ((svc.reserveSeats env theaterId movieId seatIds customerName).ok = false ∧
      (svc.reserveSeats env theaterId movieId seatIds customerName).svc = svc) := by
  cases hok : (svc.reserveSeats env theaterId movieId seatIds customerName).ok with
  | false =>
    obtain ⟨reason, hr⟩ :=
      BookingService.reserveSeats_fail_shape svc env theaterId movieId seatIds customerName hok
    right
    exact ⟨rfl, by rw [hr]⟩
  | true =>
    obtain ⟨ts, seats, h₁, h₂, h₃⟩ :=
      BookingService.reserveSeats_ok_shape svc env theaterId movieId seatIds customerName hok
    have hr := BookingService.reserveSeats_verify_ok svc env theaterId movieId seatIds
      customerName ts seats _ h₁ h₂ h₃
    have hall := BookingService.verifySeats_all_of_ok seats seatIds [] _ h₃
    have hlook : ∀ seatId ∈ seatIds, ∃ i s,
        BookingService.findSeat
          (BookingService.reserveAll seats (BookingService.pointersOf seats seatIds)) seatId =
            some (i, s) ∧ s.m_status = Seat.Status.Reserved := by
      intro seatId hmem
      obtain ⟨i, s, hfind, _⟩ := hall seatId hmem
      exact ⟨i, _, BookingService.findSeat_reserveAll_of_mem seats seatIds seatId hmem i s hfind,
        rfl⟩
    left
    refine ⟨rfl, ⟨BookingService.reserveAll seats (BookingService.pointersOf seats seatIds),
      ?_, hlook, ?_⟩, ?_⟩
    · rw [BookingService.seatsOf_storeSeats svc _ theaterId movieId ts seats _ h₁ h₂
        (by rw [hr]) theaterId movieId]
      simp
    · intro hnd s hs hsid
      obtain ⟨i, s₀, hfind, hres⟩ := hlook s.m_id hsid
      have hm := BookingService.findSeat_mem hfind
      have : s₀ = s := List.inj_on_of_nodup_map hnd hm.1 hs hm.2
      rw [← this]
      exact hres
    · rw [hr]
      exact ⟨_, rfl, rfl⟩

theorem BookingService.twoBookings_reachable :
    BookingService.Reachable BookingService.twoBookings :=
  BookingService.Reachable.reserve _ _ _ _ _ _
    (BookingService.Reachable.reserve _ _ _ _ _ _ BookingService.Reachable.fresh)

/-- C2 (no double booking).  In every state reachable from a fresh service by
calls of `reserveSeats`, for every theater and movie, two bookings at distinct
positions of the ledger that are both for that theater and movie have no seat
id in common. -/
theorem no_double_booking (svc : BookingService) (h : BookingService.Reachable svc)
    (theaterId movieId : Int) (i j : Nat) (a b : BookingData) (hij : i ≠ j)
    (ha : svc.m_bookingData[i]? = some a) (hb : svc.m_bookingData[j]? = some b)
    (haT : a.theaterId = theaterId) (haM : a.movieId = movieId)
    (hbT : b.theaterId = theaterId) (hbM : b.movieId = movieId) :
    ∀ seatId, seatId ∈ a.seatIds → seatId ∉ b.seatIds := by
  have hdis := h.ledger_invariant.2
  unfold BookingService.LedgerDisjoint at hdis
  rw [List.pairwise_iff_getElem] at hdis
  obtain ⟨hi, hai⟩ := List.getElem?_eq_some.mp ha
  obtain ⟨hj, hbj⟩ := List.getElem?_eq_some.mp hb
  intro seatId hsa hsb
  rcases Nat.lt_or_gt_of_ne hij with hlt | hgt
  · have := hdis i j hi hj hlt
    rw [hai, hbj] at this
    exact this (haT.trans hbT.symm) (haM.trans hbM.symm) hsa hsb
  · have := hdis j i hj hi hgt
    rw [hai, hbj] at this
    exact this (hbT.trans haT.symm) (hbM.trans haM.symm) hsb hsa

/-- Witness of C2 on the ledger of `twoBookings`. -/
theorem no_double_booking_witness :
    BookingService.Reachable BookingService.twoBookings ∧
    BookingService.twoBookings.m_bookingData[0]? = some ⟨1, "Alice", 1, 1, ["A1"], 10⟩ ∧
    BookingService.twoBookings.m_bookingData[1]? = some ⟨2, "Bob", 1, 1, ["A2", "A3"], 11⟩ ∧
    ∀ seatId, seatId ∈ ["A1"] → seatId ∉ ["A2", "A3"] :=
  ⟨BookingService.twoBookings_reachable, by decide, by decide,
    no_double_booking BookingService.twoBookings BookingService.twoBookings_reachable 1 1 0 1
      ⟨1, "Alice", 1, 1, ["A1"], 10⟩ ⟨2, "Bob", 1, 1, ["A2", "A3"], 11⟩ (by decide)
      (by decide) (by decide) rfl rfl rfl rfl⟩

/-- Counterexample to C3 as stated: on a fresh service the request
`["A1", "A1"]` is accepted, one booking listing `A1` twice is appended and
19 seats stay available. -/
theorem duplicate_ids_accepted :
    (BookingService.new.reserveSeats ⟨10, 10, true⟩ 1 1 ["A1", "A1"] "Alice").ok = true ∧
    (BookingService.new.reserveSeats ⟨10, 10, true⟩ 1 1 ["A1", "A1"] "Alice").signals =
      [Signal.seatsReserved 1 1 ["A1", "A1"],
       Signal.bookingCreated ⟨1, "Alice", 1, 1, ["A1", "A1"], 10⟩] ∧
    (BookingService.new.reserveSeats ⟨10, 10, true⟩ 1 1 ["A1", "A1"] "Alice").svc.m_bookingData =
      [⟨1, "Alice", 1, 1, ["A1", "A1"], 10⟩] ∧
    ((BookingService.new.reserveSeats ⟨10, 10, true⟩ 1 1 ["A1", "A1"]
      "Alice").svc.getAvailableSeats 1 1).length = 19 := by
  decide

/-- C3 (amended).  A request whose id list repeats an id is not rejected for
that: when every id of the list is looked up to an available seat of an
existing collection, `reserveSeats` returns `true`, every requested id is
looked up to a `Reserved` seat afterwards, and the ledger grows by exactly one
booking whose seat list is the requested list, repetition included. -/
theorem reserveSeats_duplicate_ids (svc : BookingService) (env : Env) (theaterId movieId : Int)
    (seatIds : List String) (customerName : String) (seats : List Seat)
    (hs : svc.seatsOf theaterId movieId = some seats)
    (hdup : ¬ seatIds.Nodup)
    (hall : ∀ seatId ∈ seatIds, ∃ i s, BookingService.findSeat seats seatId = some (i, s) ∧
      s.m_status = Seat.Status.Available) :
    (svc.reserveSeats env theaterId movieId seatIds customerName).ok = true ∧
    (∃ seats',
      (svc.reserveSeats env theaterId movieId seatIds customerName).svc.seatsOf
        theaterId movieId = some seats' ∧
      ∀ seatId ∈ seatIds, ∃ i s,
        BookingService.findSeat seats' seatId = some (i, s) ∧
          s.m_status = Seat.Status.Reserved) ∧
    (∃ b : BookingData,
      (svc.reserveSeats env theaterId movieId seatIds customerName).svc.m_bookingData =
        svc.m_bookingData ++ [b] ∧ b.seatIds = seatIds ∧ ¬ b.seatIds.Nodup) := by
  have hok := BookingService.reserveSeats_ok_of_all svc env theaterId movieId seatIds
    customerName seats hs hall
  obtain ⟨seats₀, seats', _, hs', hlook, hledger, _⟩ :=
    BookingService.reserveSeats_ok_after svc env theaterId movieId seatIds customerName hok
  refine ⟨hok, ⟨seats', hs', ?_⟩, ⟨_, hledger, rfl, hdup⟩⟩
  intro seatId hmem
  obtain ⟨i, s, _, _, hfind⟩ := hlook seatId hmem
  exact ⟨i, _, hfind, rfl⟩

/-- Witness of the amended C3: the request `["A1", "A1"]` on a fresh service. -/
theorem reserveSeats_duplicate_ids_witness :
    (BookingService.new.reserveSeats ⟨10, 10, true⟩ 1 1 ["A1", "A1"] "Alice").ok = true ∧
    (∃ seats',
      (BookingService.new.reserveSeats ⟨10, 10, true⟩ 1 1 ["A1", "A1"] "Alice").svc.seatsOf
        1 1 = some seats' ∧
      ∀ seatId ∈ ["A1", "A1"], ∃ i s,
        BookingService.findSeat seats' seatId = some (i, s) ∧
          s.m_status = Seat.Status.Reserved) ∧
    (∃ b : BookingData,
      (BookingService.new.reserveSeats ⟨10, 10, true⟩ 1 1 ["A1", "A1"]
        "Alice").svc.m_bookingData = BookingService.new.m_bookingData ++ [b] ∧
        b.seatIds = ["A1", "A1"] ∧ ¬ b.seatIds.Nodup) :=
  reserveSeats_duplicate_ids BookingService.new ⟨10, 10, true⟩ 1 1 ["A1", "A1"] "Alice"
    ((List.range 20).map (fun k => ⟨"A" ++ toString (k + 1), Seat.Status.Available⟩))
    (by decide) (by decide)
    (by
      intro seatId hmem
      have h : seatId = "A1" := by simpa using hmem
      subst h
      exact ⟨0, ⟨"A1", Seat.Status.Available⟩, by decide, rfl⟩)

/-- Counterexample to C4 as stated: on a fresh service the empty request for
theater 1 and movie 1 is accepted, a booking without seats is appended and the
booking id 1 is consumed. -/
theorem empty_request_accepted :
    (BookingService.new.reserveSeats ⟨10, 10, true⟩ 1 1 [] "Alice").ok = true ∧
    (BookingService.new.reserveSeats ⟨10, 10, true⟩ 1 1 [] "Alice").svc.m_bookingData =
      [⟨1, "Alice", 1, 1, [], 10⟩] ∧
    BookingService.new.m_nextBookingId = 1 ∧
    (BookingService.new.reserveSeats ⟨10, 10, true⟩ 1 1 [] "Alice").svc.m_nextBookingId = 2 := by
  decide

/-- C4 (amended).  An empty seat list is not rejected as such.  For every
service state, `reserveSeats` with `seatIds = []` either finds no collection
for the theater and movie, and then it returns `false` and the service is
unchanged; or it finds one, and then it returns `true`, the ledger grows by one
booking with an empty seat list, the next booking id changes (one id is
consumed) and the seat map is unchanged. -/
theorem reserveSeats_empty_request (svc : BookingService) (env : Env) (theaterId movieId : Int)
    (customerName : String) :
    (svc.seatsOf theaterId movieId = none ∧
      (svc.reserveSeats env theaterId movieId [] customerName).ok = false ∧
      (svc.reserveSeats env theaterId movieId [] customerName).svc = svc) ∨
    ((∃ seats, svc.seatsOf theaterId movieId = some seats) ∧
      (svc.reserveSeats env theaterId movieId [] customerName).ok = true ∧
      (svc.reserveSeats env theaterId movieId [] customerName).svc.m_bookingData =
        svc.m_bookingData ++
          [⟨svc.m_nextBookingId, customerName, movieId, theaterId, [], env.bookingTime⟩] ∧
      (svc.reserveSeats env theaterId movieId [] customerName).svc.m_nextBookingId =
        BookingService.incrInt32 svc.m_nextBookingId ∧
      (svc.reserveSeats env theaterId movieId [] customerName).svc.m_nextBookingId ≠
        svc.m_nextBookingId ∧
      (svc.reserveSeats env theaterId movieId [] customerName).svc.m_theaterSeats =
        svc.m_theaterSeats) := by
  cases hs : svc.seatsOf theaterId movieId with
  | none =>
    left
    have hfail : (svc.reserveSeats env theaterId movieId [] customerName).ok = false := by
      cases hok : (svc.reserveSeats env theaterId movieId [] customerName).ok with
      | false => rfl
      | true =>
        obtain ⟨seats, _, hs', _⟩ :=
          BookingService.reserveSeats_ok_after svc env theaterId movieId [] customerName hok
        rw [hs] at hs'
        cases hs'
    obtain ⟨reason, hr⟩ :=
      BookingService.reserveSeats_fail_shape svc env theaterId movieId [] customerName hfail
    exact ⟨rfl, hfail, by rw [hr]⟩
  | some seats =>
    right
    obtain ⟨ts, h₁, h₂⟩ := (BookingService.seatsOf_eq_some_iff svc theaterId movieId seats).mp hs
    have hr := BookingService.reserveSeats_verify_ok svc env theaterId movieId []
      customerName ts seats [] h₁ h₂ rfl
    refine ⟨⟨seats, rfl⟩, by rw [hr], by rw [hr], by rw [hr], ?_, ?_⟩
    · rw [hr]
      exact BookingService.incrInt32_ne _
    · rw [hr]
      simp only [BookingService.storeSeats, BookingService.reserveAll, List.foldl_nil]
      apply QMap.modify_eq_self _ _ _ ts h₁
      rw [QMap.modify_eq_self _ _ _ seats h₂ rfl]

/-- C5 (success characterisation).  In every reachable state, `reserveSeats`
returns `true` exactly when the theater is a key of the seat map, that theater
has a collection for the movie, and every requested id is the id of a seat of
that collection whose status is `Available` before the call.  On success the
ledger grows by one booking, and every seat id of that booking is the id of an
`Available` seat of the collection before the call and of a seat of the
collection after it, every seat with that id being `Reserved` after it. -/
theorem reserveSeats_succeeds_iff (svc : BookingService) (h : BookingService.Reachable svc)
    (env : Env) (theaterId movieId : Int) (seatIds : List String) (customerName : String) :
    ((svc.reserveSeats env theaterId movieId seatIds customerName).ok = true ↔
      ∃ ts, QMap.find svc.m_theaterSeats theaterId = some ts ∧
        ∃ seats, QMap.find ts.movieSeats movieId = some seats ∧
          ∀ seatId ∈ seatIds, ∃ s ∈ seats, s.m_id = seatId ∧
            s.m_status = Seat.Status.Available) ∧
    ((svc.reserveSeats env theaterId movieId seatIds customerName).ok = true →
      ∃ (b : BookingData) (seats seats' : List Seat),
        (svc.reserveSeats env theaterId movieId seatIds customerName).svc.m_bookingData =
          svc.m_bookingData ++ [b] ∧
        svc.seatsOf theaterId movieId = some seats ∧
        (svc.reserveSeats env theaterId movieId seatIds customerName).svc.seatsOf
          theaterId movieId = some seats' ∧
        ∀ seatId ∈ b.seatIds,
          (∃ s ∈ seats, s.m_id = seatId ∧ s.m_status = Seat.Status.Available) ∧
          (∃ s ∈ seats', s.m_id = seatId) ∧
          (∀ s ∈ seats', s.m_id = seatId → s.m_status = Seat.Status.Reserved)) := by
  have hafterOf : (svc.reserveSeats env theaterId movieId seatIds customerName).ok = true →
      ∃ (b : BookingData) (seats seats' : List Seat),
        (svc.reserveSeats env theaterId movieId seatIds customerName).svc.m_bookingData =
          svc.m_bookingData ++ [b] ∧
        svc.seatsOf theaterId movieId = some seats ∧
        (svc.reserveSeats env theaterId movieId seatIds customerName).svc.seatsOf
          theaterId movieId = some seats' ∧
        ∀ seatId ∈ b.seatIds,
          (∃ s ∈ seats, s.m_id = seatId ∧ s.m_status = Seat.Status.Available) ∧
          (∃ s ∈ seats', s.m_id = seatId) ∧
          (∀ s ∈ seats', s.m_id = seatId → s.m_status = Seat.Status.Reserved) := by
    intro hok
    obtain ⟨seats, seats', hs, hs', hlook, hledger, _⟩ :=
      BookingService.reserveSeats_ok_after svc env theaterId movieId seatIds customerName hok
    have hnd' : (seats'.map Seat.m_id).Nodup :=
      (BookingService.Reachable.reserve svc env theaterId movieId seatIds customerName
        h).nodup_ids hs'
    refine ⟨_, seats, seats', hledger, hs, hs', ?_⟩
    intro seatId hmem
    obtain ⟨i, s, hfind, hav, hfind'⟩ := hlook seatId hmem
    have hm := BookingService.findSeat_mem hfind
    have hm' := BookingService.findSeat_mem hfind'
    refine ⟨⟨s, hm.1, hm.2, hav⟩, ⟨_, hm'.1, hm'.2⟩, ?_⟩
    intro t ht htid
    have : (⟨s.m_id, Seat.Status.Reserved⟩ : Seat) = t :=
      List.inj_on_of_nodup_map hnd' hm'.1 ht (hm'.2.trans htid.symm)
    rw [← this]
  refine ⟨⟨?_, ?_⟩, hafterOf⟩
  · intro hok
    obtain ⟨seats, seats', hs, _, hlook, _, _⟩ :=
      BookingService.reserveSeats_ok_after svc env theaterId movieId seatIds customerName hok
    obtain ⟨ts, h₁, h₂⟩ :=
      (BookingService.seatsOf_eq_some_iff svc theaterId movieId seats).mp hs
    refine ⟨ts, h₁, seats, h₂, ?_⟩
    intro seatId hmem
    obtain ⟨i, s, hfind, hav, _⟩ := hlook seatId hmem
    have hm := BookingService.findSeat_mem hfind
    exact ⟨s, hm.1, hm.2, hav⟩
  · rintro ⟨ts, h₁, seats, h₂, hall⟩
    have hs : svc.seatsOf theaterId movieId = some seats :=
      (BookingService.seatsOf_eq_some_iff svc theaterId movieId seats).mpr ⟨ts, h₁, h₂⟩
    have hnd := h.nodup_ids hs
    exact BookingService.reserveSeats_ok_of_all svc env theaterId movieId seatIds
      customerName seats hs
      (fun seatId hmem => BookingService.findSeat_of_exists_nodup hnd (hall seatId hmem))

/-- Witness of C5: the request `["A1", "A2"]` on a fresh service succeeds, so
the right-hand side of the characterisation holds there. -/
theorem reserveSeats_succeeds_iff_witness :
    BookingService.Reachable BookingService.new ∧
    (BookingService.new.reserveSeats ⟨10, 10, true⟩ 1 1 ["A1", "A2"] "Alice").ok = true ∧
    ∃ ts, QMap.find BookingService.new.m_theaterSeats 1 = some ts ∧
      ∃ seats, QMap.find ts.movieSeats 1 = some seats ∧
        ∀ seatId ∈ ["A1", "A2"], ∃ s ∈ seats, s.m_id = seatId ∧
          s.m_status = Seat.Status.Available :=
  ⟨BookingService.Reachable.fresh, by decide,
    (reserveSeats_succeeds_iff BookingService.new BookingService.Reachable.fresh
      ⟨10, 10, true⟩ 1 1 ["A1", "A2"] "Alice").1.mp (by decide)⟩

/-- C6 (refusal of a seat that is not available).  In every reachable state:
(1) for a request on an existing collection in which every id before `seatId`
is the id of an `Available` seat and `seatId` is the id of a seat of the
collection whose status is not `Available`, `reserveSeats` returns `false`,
emits exactly `reservationFailed("Seat <seatId> is not available")` and leaves
the service unchanged; (2) after a successful `reserveSeats` for `["A1"]`, a
second `reserveSeats` for `["A1"]` on the same theater and movie, for any
customer, returns `false` with reason `"Seat A1 is not available"` and leaves
the service unchanged. -/
theorem reserveSeats_seat_unavailable (svc : BookingService)
    (h : BookingService.Reachable svc) :
    (∀ (env : Env) (theaterId movieId : Int) (customerName : String) (seats : List Seat)
        (pre : List String) (seatId : String) (post : List String),
      svc.seatsOf theaterId movieId = some seats →
      (∀ x ∈ pre, ∃ s ∈ seats, s.m_id = x ∧ s.m_status = Seat.Status.Available) →
      (∃ s ∈ seats, s.m_id = seatId ∧ s.m_status ≠ Seat.Status.Available) →
      svc.reserveSeats env theaterId movieId (pre ++ seatId :: post) customerName =
        ⟨false, svc,
          [Signal.reservationFailed ("Seat " ++ seatId ++ " is not available")]⟩) ∧
    (∀ (env₁ env₂ : Env) (theaterId movieId : Int) (c₁ c₂ : String),
      (svc.reserveSeats env₁ theaterId movieId ["A1"] c₁).ok = true →
      (svc.reserveSeats env₁ theaterId movieId ["A1"] c₁).svc.reserveSeats
          env₂ theaterId movieId ["A1"] c₂ =
        ⟨false, (svc.reserveSeats env₁ theaterId movieId ["A1"] c₁).svc,
          [Signal.reservationFailed "Seat A1 is not available"]⟩) := by
  constructor
  · intro env theaterId movieId customerName seats pre seatId post hs hpre hbad
    have hnd := h.nodup_ids hs
    obtain ⟨i, s, hfind, hst⟩ := BookingService.findSeat_of_exists_nodup hnd hbad
    exact BookingService.reserveSeats_first_unavailable svc env theaterId movieId customerName
      seats pre seatId post i s hs
      (fun x hx => BookingService.findSeat_of_exists_nodup hnd (hpre x hx)) hfind hst
  · intro env₁ env₂ theaterId movieId c₁ c₂ hok
    obtain ⟨seats, seats', _, hs', hlook, _, _⟩ :=
      BookingService.reserveSeats_ok_after svc env₁ theaterId movieId ["A1"] c₁ hok
    obtain ⟨i, s, _, _, hfind'⟩ := hlook "A1" (List.mem_singleton.mpr rfl)
    exact BookingService.reserveSeats_first_unavailable _ env₂ theaterId movieId c₂
      seats' [] "A1" [] i _ hs' (fun x hx => absurd hx (List.not_mem_nil x)) hfind'
      (by simp)

/-- Witness of C6: Alice reserves `A1` on a fresh service, then Bob is refused;
and in `twoBookings` the request `["A4", "A2", "Z9"]` is refused for `A2`. -/
theorem reserveSeats_seat_unavailable_witness :
    BookingService.Reachable BookingService.new ∧
    (BookingService.new.reserveSeats ⟨10, 10, true⟩ 1 1 ["A1"] "Alice").ok = true ∧
    (BookingService.new.reserveSeats ⟨10, 10, true⟩ 1 1 ["A1"] "Alice").svc.reserveSeats
        ⟨11, 11, true⟩ 1 1 ["A1"] "Bob" =
      ⟨false, (BookingService.new.reserveSeats ⟨10, 10, true⟩ 1 1 ["A1"] "Alice").svc,
        [Signal.reservationFailed "Seat A1 is not available"]⟩ ∧
    BookingService.twoBookings.reserveSeats ⟨12, 12, true⟩ 1 1 (["A4"] ++ "A2" :: ["Z9"])
        "Carol" =
      ⟨false, BookingService.twoBookings,
        [Signal.reservationFailed ("Seat " ++ "A2" ++ " is not available")]⟩ :=
  ⟨BookingService.Reachable.fresh, by decide,
    (reserveSeats_seat_unavailable BookingService.new BookingService.Reachable.fresh).2
      ⟨10, 10, true⟩ ⟨11, 11, true⟩ 1 1 "Alice" "Bob" (by decide),
    (reserveSeats_seat_unavailable BookingService.twoBookings
      BookingService.twoBookings_reachable).1 ⟨12, 12, true⟩ 1 1 "Carol"
      ((List.range 20).map (fun k => ⟨"A" ++ toString (k + 1),
        if k < 3 then Seat.Status.Reserved else Seat.Status.Available⟩))
      ["A4"] "A2" ["Z9"] (by decide) (by decide) (by decide)⟩

/-- C7 (unknown seat id).  In every reachable state, for a request on an
existing collection in which every id before `seatId` is the id of an
`Available` seat and no seat of the collection has the id `seatId`,
`reserveSeats` returns `false`, emits exactly
`reservationFailed("Seat <seatId> not found")`, leaves the service unchanged,
and `getAvailableSeats` for the theater and movie is the same list before and
after the call. -/
theorem reserveSeats_seat_not_found (svc : BookingService) (h : BookingService.Reachable svc)
    (env : Env) (theaterId movieId : Int) (customerName : String) (seats : List Seat)
    (pre : List String) (seatId : String) (post : List String)
    (hs : svc.seatsOf theaterId movieId = some seats)
    (hpre : ∀ x ∈ pre, ∃ s ∈ seats, s.m_id = x ∧ s.m_status = Seat.Status.Available)
    (habs : ∀ s ∈ seats, s.m_id ≠ seatId) :
    svc.reserveSeats env theaterId movieId (pre ++ seatId :: post) customerName =
      ⟨false, svc, [Signal.reservationFailed ("Seat " ++ seatId ++ " not found")]⟩ ∧
    (svc.reserveSeats env theaterId movieId (pre ++ seatId :: post)
      customerName).svc.getAvailableSeats theaterId movieId =
      svc.getAvailableSeats theaterId movieId := by
  have hnd := h.nodup_ids hs
  have hr := BookingService.reserveSeats_first_not_found svc env theaterId movieId customerName
    seats pre seatId post hs
    (fun x hx => BookingService.findSeat_of_exists_nodup hnd (hpre x hx))
    ((BookingService.findSeat_eq_none_iff seats seatId).mpr habs)
  exact ⟨hr, by rw [hr]⟩

/-- Witness of C7: the request `["Z9"]` for Dave on a fresh service. -/
theorem reserveSeats_seat_not_found_witness :
    BookingService.Reachable BookingService.new ∧
    BookingService.new.reserveSeats ⟨10, 10, true⟩ 1 1 ([] ++ "Z9" :: []) "Dave" =
      ⟨false, BookingService.new,
        [Signal.reservationFailed ("Seat " ++ "Z9" ++ " not found")]⟩ ∧
    (BookingService.new.reserveSeats ⟨10, 10, true⟩ 1 1 ([] ++ "Z9" :: [])
      "Dave").svc.getAvailableSeats 1 1 = BookingService.new.getAvailableSeats 1 1 ∧
    (BookingService.new.getAvailableSeats 1 1).length = 20 :=
  ⟨BookingService.Reachable.fresh,
    (reserveSeats_seat_not_found BookingService.new BookingService.Reachable.fresh
      ⟨10, 10, true⟩ 1 1 "Dave"
      ((List.range 20).map (fun k => ⟨"A" ++ toString (k + 1), Seat.Status.Available⟩))
      [] "Z9" [] (by decide) (by decide) (by decide)).1,
    (reserveSeats_seat_not_found BookingService.new BookingService.Reachable.fresh
      ⟨10, 10, true⟩ 1 1 "Dave"
      ((List.range 20).map (fun k => ⟨"A" ++ toString (k + 1), Seat.Status.Available⟩))
      [] "Z9" [] (by decide) (by decide) (by decide)).2,
    by decide⟩

/-- C8 (unknown theater).  For every service state and every `theaterId` that
is not a key of the seat map, `reserveSeats` returns `false`, emits exactly
`reservationFailed("Theater not found")`, and the service afterwards (every
seat status of every collection, the ledger, the next booking id) is the
service before the call, whatever the movie, the seat ids and the customer. -/
theorem reserveSeats_unknown_theater (svc : BookingService) (env : Env)
    (theaterId movieId : Int) (seatIds : List String) (customerName : String)
    (h : theaterId ∉ svc.m_theaterSeats.map Prod.fst) :
    svc.reserveSeats env theaterId movieId seatIds customerName =
      ⟨false, svc, [Signal.reservationFailed "Theater not found"]⟩ :=
  BookingService.reserveSeats_no_theater svc env theaterId movieId seatIds customerName
    ((QMap.find_eq_none_iff svc.m_theaterSeats theaterId).mpr h)

/-- Witness of C8: theater 99 on a fresh service, seat `A1` for Eve. -/
theorem reserveSeats_unknown_theater_witness :
    (99 : Int) ∉ BookingService.new.m_theaterSeats.map Prod.fst ∧
    BookingService.new.reserveSeats ⟨10, 10, true⟩ 99 1 ["A1"] "Eve" =
      ⟨false, BookingService.new, [Signal.reservationFailed "Theater not found"]⟩ :=
  ⟨by decide,
    reserveSeats_unknown_theater BookingService.new ⟨10, 10, true⟩ 99 1 ["A1"] "Eve"
      (by decide)⟩

/-- C9 (unknown show).  For every service state, every `theaterId` that the
seat map holds and every `movieId` that is not a key of that theater's
collections, `reserveSeats` returns `false`, emits exactly
`reservationFailed("Movie not showing in this theater")`, a reason different
from the one of an unknown theater, and leaves the service unchanged, whatever
the seat ids. -/
theorem reserveSeats_unknown_show (svc : BookingService) (env : Env)
    (theaterId movieId : Int) (seatIds : List String) (customerName : String)
    (ts : TheaterSeats) (h₁ : QMap.find svc.m_theaterSeats theaterId = some ts)
    (h₂ : movieId ∉ ts.movieSeats.map Prod.fst) :
    svc.reserveSeats env theaterId movieId seatIds customerName =
      ⟨false, svc, [Signal.reservationFailed "Movie not showing in this theater"]⟩ ∧
    Signal.reservationFailed "Movie not showing in this theater" ≠
      Signal.reservationFailed "Theater not found" :=
  ⟨BookingService.reserveSeats_no_show svc env theaterId movieId seatIds customerName ts h₁
    ((QMap.find_eq_none_iff ts.movieSeats movieId).mpr h₂), by decide⟩

/-- Witness of C9: movie 9 in theater 1 of a fresh service. -/
theorem reserveSeats_unknown_show_witness :
    BookingService.new.reserveSeats ⟨10, 10, true⟩ 1 9 ["A1"] "Eve" =
      ⟨false, BookingService.new,
        [Signal.reservationFailed "Movie not showing in this theater"]⟩ ∧
    Signal.reservationFailed "Movie not showing in this theater" ≠
      Signal.reservationFailed "Theater not found" :=
  reserveSeats_unknown_show BookingService.new ⟨10, 10, true⟩ 1 9 ["A1"] "Eve"
    ⟨(List.range 4).map (fun k => ((k : Int) + 1,
      (List.range 20).map (fun j => ⟨"A" ++ toString (j + 1), Seat.Status.Available⟩)))⟩
    (by decide) (by decide)

/-- C11 (disjoint requests all succeed).  In every reachable state, for every
finite family of requests on one theater and movie whose id lists are
duplicate-free, pairwise disjoint and name only seats that are `Available` in
that state, running the calls of `reserveSeats` one after the other in any
order (any permutation of the family) makes every call return `true`, and the
length of `getAvailableSeats` for that theater and movie goes down by exactly
the total number of ids named. -/
theorem reserveEach_disjoint_all_succeed (svc : BookingService)
    (h : BookingService.Reachable svc) (theaterId movieId : Int) (seats : List Seat)
    (reqs order : List (Env × List String × String))
    (hs : svc.seatsOf theaterId movieId = some seats)
    (hnodup : ∀ r ∈ reqs, r.2.1.Nodup)
    (hdisj : reqs.Pairwise (fun a b => ∀ seatId ∈ a.2.1, seatId ∉ b.2.1))
    (hav : ∀ r ∈ reqs, ∀ seatId ∈ r.2.1, ∃ s ∈ seats, s.m_id = seatId ∧
      s.m_status = Seat.Status.Available)
    (horder : order.Perm reqs) :
    (∀ o ∈ (svc.reserveEach theaterId movieId order).2, o.ok = true) ∧
    (svc.reserveEach theaterId movieId order).2.length = reqs.length ∧
    ((svc.reserveEach theaterId movieId order).1.getAvailableSeats theaterId movieId).length +
        (reqs.map (fun r => r.2.1.length)).sum =
      (svc.getAvailableSeats theaterId movieId).length := by
  have hsymm : ∀ {a b : Env × List String × String},
      (∀ seatId ∈ a.2.1, seatId ∉ b.2.1) → (∀ seatId ∈ b.2.1, seatId ∉ a.2.1) :=
    fun hab seatId hb ha => hab seatId ha hb
  have hdisj' := (horder.pairwise_iff hsymm).mpr hdisj
  have hmain := BookingService.reserveEach_disjoint theaterId movieId order svc seats h hs
    (fun r hr => hnodup r (horder.subset hr)) hdisj'
    (fun r hr => hav r (horder.subset hr))
  have hsum : (order.map (fun r => r.2.1.length)).sum = (reqs.map (fun r => r.2.1.length)).sum :=
    (horder.map _).sum_eq
  rw [← hsum, ← horder.length_eq]
  exact hmain

/-- Witness of C11: ten single seats in reverse order leave 10 of 20 seats, and
five triples leave 5. -/
theorem reserveEach_disjoint_all_succeed_witness :
    ((∀ o ∈ (BookingService.new.reserveEach 1 1 BookingService.tenSingles.reverse).2,
        o.ok = true) ∧
      (BookingService.new.reserveEach 1 1 BookingService.tenSingles.reverse).2.length =
        BookingService.tenSingles.length ∧
      ((BookingService.new.reserveEach 1 1
          BookingService.tenSingles.reverse).1.getAvailableSeats 1 1).length +
          (BookingService.tenSingles.map (fun r => r.2.1.length)).sum =
        (BookingService.new.getAvailableSeats 1 1).length) ∧
    ((BookingService.new.reserveEach 1 1
      BookingService.tenSingles.reverse).1.getAvailableSeats 1 1).length = 10 ∧
    ((BookingService.new.reserveEach 1 1
      BookingService.fiveTriples).1.getAvailableSeats 1 1).length = 5 ∧
    (BookingService.new.reserveEach 1 1 BookingService.fiveTriples).2.map (fun o => o.ok) =
      [true, true, true, true, true] :=
  ⟨reserveEach_disjoint_all_succeed BookingService.new BookingService.Reachable.fresh 1 1
      ((List.range 20).map (fun k => ⟨"A" ++ toString (k + 1), Seat.Status.Available⟩))
      BookingService.tenSingles BookingService.tenSingles.reverse
      (by decide) (by decide) (by decide) (by decide)
      (List.reverse_perm BookingService.tenSingles),
    by decide, by decide, by decide⟩

/-- C12 (available seats).  `getAvailableSeats` returns the empty list when the
theater is not a key of the seat map, and when the theater has no collection
for the movie; otherwise it returns the order-preserving filter of the
collection by status `Available`: a sublist of the collection, whose members
are exactly the seats of the collection with status `Available`.  The method is
a function of the service that returns only the list, so no state changes. -/
theorem getAvailableSeats_spec (svc : BookingService) (theaterId movieId : Int) :
    (theaterId ∉ svc.m_theaterSeats.map Prod.fst →
      svc.getAvailableSeats theaterId movieId = []) ∧
    (∀ ts, QMap.find svc.m_theaterSeats theaterId = some ts →
      movieId ∉ ts.movieSeats.map Prod.fst →
      svc.getAvailableSeats theaterId movieId = []) ∧
    (∀ ts seats, QMap.find svc.m_theaterSeats theaterId = some ts →
      QMap.find ts.movieSeats movieId = some seats →
      svc.getAvailableSeats theaterId movieId =
        seats.filter (fun s => decide (s.m_status = Seat.Status.Available)) ∧
      (svc.getAvailableSeats theaterId movieId).Sublist seats ∧
      ∀ s, s ∈ svc.getAvailableSeats theaterId movieId ↔
        s ∈ seats ∧ s.m_status = Seat.Status.Available) := by
  refine ⟨?_, ?_, ?_⟩
  · intro hT
    have h₁ := (QMap.find_eq_none_iff svc.m_theaterSeats theaterId).mpr hT
    simp [BookingService.getAvailableSeats, h₁]
  · intro ts h₁ hM
    have h₂ := (QMap.find_eq_none_iff ts.movieSeats movieId).mpr hM
    simp [BookingService.getAvailableSeats, h₁, h₂]
  · intro ts seats h₁ h₂
    have heq : svc.getAvailableSeats theaterId movieId =
        seats.filter (fun s => decide (s.m_status = Seat.Status.Available)) := by
      simp [BookingService.getAvailableSeats, h₁, h₂, Seat.isAvailable]
    refine ⟨heq, ?_, ?_⟩
    · rw [heq]
      exact List.filter_sublist seats
    · intro s
      rw [heq]
      simp [List.mem_filter]

/-- Witness of C12 on `twoBookings`: theater 7 and movie 9 of theater 1 give
the empty list, theater 1 and movie 1 give the seats `A4`, ..., `A20`. -/
theorem getAvailableSeats_spec_witness :
    BookingService.twoBookings.getAvailableSeats 7 1 = [] ∧
    BookingService.twoBookings.getAvailableSeats 1 9 = [] ∧
    BookingService.twoBookings.getAvailableSeats 1 1 =
      (List.range 17).map (fun k => ⟨"A" ++ toString (k + 4), Seat.Status.Available⟩) ∧
    ∀ ts seats, QMap.find BookingService.twoBookings.m_theaterSeats 1 = some ts →
      QMap.find ts.movieSeats 1 = some seats →
      BookingService.twoBookings.getAvailableSeats 1 1 =
        seats.filter (fun s => decide (s.m_status = Seat.Status.Available)) ∧
      (BookingService.twoBookings.getAvailableSeats 1 1).Sublist seats ∧
      ∀ s, s ∈ BookingService.twoBookings.getAvailableSeats 1 1 ↔
        s ∈ seats ∧ s.m_status = Seat.Status.Available :=
  ⟨(getAvailableSeats_spec BookingService.twoBookings 7 1).1 (by decide),
    by decide, by decide,
    (getAvailableSeats_spec BookingService.twoBookings 1 1).2.2⟩

/-- C13 (effect of a successful reservation on availability).  In every
reachable state, after a successful `reserveSeats` for a duplicate-free list
of ids, `getAvailableSeats` for the theater and movie is the list it was
before the call without the seats whose id is requested (same order), and its
length has gone down by exactly the number of ids. -/
theorem reserveSeats_removes_available (svc : BookingService)
    (h : BookingService.Reachable svc) (env : Env) (theaterId movieId : Int)
    (seatIds : List String) (customerName : String) (hS : seatIds.Nodup)
    (hok : (svc.reserveSeats env theaterId movieId seatIds customerName).ok = true) :
    (svc.reserveSeats env theaterId movieId seatIds customerName).svc.getAvailableSeats
        theaterId movieId =
      (svc.getAvailableSeats theaterId movieId).filter
        (fun seat => decide (seat.m_id ∉ seatIds)) ∧
    ((svc.reserveSeats env theaterId movieId seatIds customerName).svc.getAvailableSeats
        theaterId movieId).length + seatIds.length =
      (svc.getAvailableSeats theaterId movieId).length := by
  obtain ⟨seats, _, hs, _⟩ :=
    BookingService.reserveSeats_ok_after svc env theaterId movieId seatIds customerName hok
  have hnd := h.nodup_ids hs
  exact ⟨(BookingService.reserveSeats_ok_marked svc env theaterId movieId seatIds
      customerName seats hs hnd hok).2,
    BookingService.reserveSeats_ok_length svc env theaterId movieId seatIds customerName
      seats hs hnd hS hok⟩

/-- Witness of C13: `["A1"]` leaves 19 of 20 seats and `["A1", "A2", "A3"]`
leaves 17, on a fresh service. -/
theorem reserveSeats_removes_available_witness :
    ((BookingService.new.reserveSeats ⟨10, 10, true⟩ 1 1 ["A1"] "John Doe").svc.getAvailableSeats
        1 1).length + ["A1"].length = (BookingService.new.getAvailableSeats 1 1).length ∧
    ((BookingService.new.reserveSeats ⟨10, 10, true⟩ 1 1 ["A1", "A2", "A3"]
        "Jane Doe").svc.getAvailableSeats 1 1).length + ["A1", "A2", "A3"].length =
      (BookingService.new.getAvailableSeats 1 1).length ∧
    (BookingService.new.getAvailableSeats 1 1).length = 20 ∧
    ((BookingService.new.reserveSeats ⟨10, 10, true⟩ 1 1 ["A1"] "John Doe").svc.getAvailableSeats
        1 1).length = 19 ∧
    ((BookingService.new.reserveSeats ⟨10, 10, true⟩ 1 1 ["A1", "A2", "A3"]
        "Jane Doe").svc.getAvailableSeats 1 1).length = 17 :=
  ⟨(reserveSeats_removes_available BookingService.new BookingService.Reachable.fresh
      ⟨10, 10, true⟩ 1 1 ["A1"] "John Doe" (by decide) (by decide)).2,
    (reserveSeats_removes_available BookingService.new BookingService.Reachable.fresh
      ⟨10, 10, true⟩ 1 1 ["A1", "A2", "A3"] "Jane Doe" (by decide) (by decide)).2,
    by decide, by decide, by decide⟩

/-- C14 (fresh-store inventory).  Immediately after construction the theaters
have the ids 1, 2, 3 and the movies the ids 1, 2, 3, 4; for each of these
theaters and movies `getAvailableSeats` returns exactly 20 seats, with the ids
`A1`, `A2`, ..., `A20` in that order and all with status `Available`; and the
ledger is empty. -/
theorem fresh_store_inventory :
    BookingService.new.m_theaters.map Theater.getId = [1, 2, 3] ∧
    BookingService.new.m_movies.map Movie.getId = [1, 2, 3, 4] ∧
    (∀ theaterId ∈ ([1, 2, 3] : List Int), ∀ movieId ∈ ([1, 2, 3, 4] : List Int),
      (BookingService.new.getAvailableSeats theaterId movieId).length = 20 ∧
      (BookingService.new.getAvailableSeats theaterId movieId).map Seat.getId =
        ["A1", "A2", "A3", "A4", "A5", "A6", "A7", "A8", "A9", "A10",
         "A11", "A12", "A13", "A14", "A15", "A16", "A17", "A18", "A19", "A20"] ∧
      (∀ s ∈ BookingService.new.getAvailableSeats theaterId movieId,
        s.getStatus = Seat.Status.Available) ∧
      BookingService.new.seatsOf theaterId movieId =
        some (BookingService.new.getAvailableSeats theaterId movieId)) ∧
    BookingService.new.m_bookingData = [] ∧
    BookingService.new.m_bookings = [] := by
  decide

/-- Counterexample to C15 as stated.  The counter `m_nextBookingId` is an `int`
(taken here with the usual two's complement wrap-around on overflow).  After
`2 ^ 31` successful calls with an empty seat list, a reachable state, the
booking at position `2 ^ 31 - 2` has id `2 ^ 31 - 1` and the next booking, the
`2 ^ 31`-th one, has id `-2 ^ 31`: it is not larger than the one before it and
its id is not its rank. -/
theorem booking_ids_wrap :
    BookingService.Reachable (BookingService.emptyRuns (2 ^ 31)) ∧
    ∃ a b : BookingData,
      (BookingService.emptyRuns (2 ^ 31)).m_bookingData[2 ^ 31 - 2]? = some a ∧
      (BookingService.emptyRuns (2 ^ 31)).m_bookingData[2 ^ 31 - 1]? = some b ∧
      a.id = 2 ^ 31 - 1 ∧ b.id = -(2 ^ 31) ∧ ¬ a.id < b.id ∧ b.id ≠ 2 ^ 31 := by
  refine ⟨BookingService.emptyRuns_reachable _, ?_⟩
  obtain ⟨a, ha, haid⟩ := BookingService.emptyRuns_id (2 ^ 31) (2 ^ 31 - 2) (by norm_num)
  obtain ⟨b, hb, hbid⟩ := BookingService.emptyRuns_id (2 ^ 31) (2 ^ 31 - 1) (by norm_num)
  have ha' : a.id = 2 ^ 31 - 1 := by
    rw [haid]
    unfold BookingService.toInt32
    norm_num
  have hb' : b.id = -(2 ^ 31) := by
    rw [hbid]
    unfold BookingService.toInt32
    norm_num
  refine ⟨a, b, ha, hb, ha', hb', ?_, ?_⟩
  · rw [ha', hb']
    norm_num
  · rw [hb']
    norm_num

/-- C15 (amended).  In every state reachable from a fresh service whose ledger
holds fewer than `2 ^ 31` bookings, the booking at position `k` of the ledger
(the `k + 1`-th committed booking) has id `k + 1`, so the ids are strictly
increasing in ledger order and pairwise distinct; and a call of
`reserveSeats` that returns `false` changes neither the next id nor the
ledger. -/
theorem booking_ids_increasing (svc : BookingService) (h : BookingService.Reachable svc)
    (hlen : svc.m_bookingData.length < 2 ^ 31) :
    (∀ (k : Nat) (b : BookingData), svc.m_bookingData[k]? = some b → b.id = (k : Int) + 1) ∧
    (svc.m_bookingData.map BookingData.id).Pairwise (fun x y => x < y) ∧
    (svc.m_bookingData.map BookingData.id).Nodup ∧
    (∀ (env : Env) (theaterId movieId : Int) (seatIds : List String) (customerName : String),
      (svc.reserveSeats env theaterId movieId seatIds customerName).ok = false →
      (svc.reserveSeats env theaterId movieId seatIds customerName).svc.m_nextBookingId =
        svc.m_nextBookingId ∧
      (svc.reserveSeats env theaterId movieId seatIds customerName).svc.m_bookingData =
        svc.m_bookingData) := by
  have hids : ∀ (k : Nat) (b : BookingData), svc.m_bookingData[k]? = some b →
      b.id = (k : Int) + 1 := by
    intro k b hk
    have hklt : k < svc.m_bookingData.length := (List.getElem?_eq_some.mp hk).1
    rw [h.booking_ids.2 k b hk, BookingService.toInt32_of_lt]
    · omega
    · have : ((k : Int) + 1) < ((2 ^ 31 : Nat) : Int) := by omega
      simpa using this
  have hpair : (svc.m_bookingData.map BookingData.id).Pairwise (fun x y => x < y) := by
    rw [List.pairwise_iff_getElem]
    intro i j hi hj hij
    rw [List.length_map] at hi hj
    rw [List.getElem_map, List.getElem_map,
      hids i _ (List.getElem?_eq_getElem hi), hids j _ (List.getElem?_eq_getElem hj)]
    omega
  refine ⟨hids, hpair, ?_, ?_⟩
  · exact hpair.imp (fun hxy => ne_of_lt hxy)
  · intro env theaterId movieId seatIds customerName hok
    obtain ⟨reason, hr⟩ :=
      BookingService.reserveSeats_fail_shape svc env theaterId movieId seatIds customerName hok
    rw [hr]
    exact ⟨rfl, rfl⟩

/-- Witness of the amended C15 on `twoBookings`: the ids are 1 and 2. -/
theorem booking_ids_increasing_witness :
    BookingService.Reachable BookingService.twoBookings ∧
    BookingService.twoBookings.m_bookingData.length < 2 ^ 31 ∧
    BookingService.twoBookings.m_bookingData.map BookingData.id = [1, 2] ∧
    (BookingService.twoBookings.m_bookingData.map BookingData.id).Pairwise
      (fun x y => x < y) :=
  ⟨BookingService.twoBookings_reachable, by decide, by decide,
    (booking_ids_increasing BookingService.twoBookings BookingService.twoBookings_reachable
      (by decide)).2.1⟩

/-- C16 (ledger query).  For every service state and every customer,
`getBookingData` returns the order-preserving filter of the ledger by
`customerId`: a sublist of the ledger (commit order is kept) whose members are
exactly the ledger entries with that customer; so no booking of another
customer appears in it, and it is empty when, and only when, the customer has
no booking in the ledger. -/
theorem getBookingData_spec (svc : BookingService) (customerName : String) :
    svc.getBookingData customerName =
      svc.m_bookingData.filter (fun b => decide (b.customerId = customerName)) ∧
    (svc.getBookingData customerName).Sublist svc.m_bookingData ∧
    (∀ b, b ∈ svc.getBookingData customerName ↔
      b ∈ svc.m_bookingData ∧ b.customerId = customerName) ∧
    (∀ b ∈ svc.getBookingData customerName, b.customerId = customerName) ∧
    (svc.getBookingData customerName = [] ↔
      ∀ b ∈ svc.m_bookingData, b.customerId ≠ customerName) := by
  have hmem : ∀ b, b ∈ svc.getBookingData customerName ↔
      b ∈ svc.m_bookingData ∧ b.customerId = customerName := by
    intro b
    simp [BookingService.getBookingData, List.mem_filter]
  refine ⟨rfl, List.filter_sublist _, hmem, fun b hb => ((hmem b).mp hb).2, ?_⟩
  constructor
  · intro hnil b hb hc
    have : b ∈ svc.getBookingData customerName := (hmem b).mpr ⟨hb, hc⟩
    rw [hnil] at this
    cases this
  · intro hnone
    apply List.eq_nil_iff_forall_not_mem.mpr
    intro b hb
    exact hnone b ((hmem b).mp hb).1 ((hmem b).mp hb).2

/-- C17 (content of the committed booking).  After a successful
`reserveSeats`, the ledger is the ledger before the call followed by exactly
one booking, whose theater, movie and customer are those of the call and whose
seat list is the requested list, as a sequence (same ids, same order, same
length); its id is the next booking id before the call. -/
theorem reserveSeats_booking_content (svc : BookingService) (env : Env)
    (theaterId movieId : Int) (seatIds : List String) (customerName : String)
    (hok : (svc.reserveSeats env theaterId movieId seatIds customerName).ok = true) :
    ∃ b : BookingData,
      (svc.reserveSeats env theaterId movieId seatIds customerName).svc.m_bookingData =
        svc.m_bookingData ++ [b] ∧
      b.theaterId = theaterId ∧ b.movieId = movieId ∧ b.customerId = customerName ∧
      b.seatIds = seatIds ∧ b.seatIds.length = seatIds.length ∧
      b.id = svc.m_nextBookingId ∧ b.bookingTime = env.bookingTime := by
  obtain ⟨_, _, _, _, _, hledger, _⟩ :=
    BookingService.reserveSeats_ok_after svc env theaterId movieId seatIds customerName hok
  exact ⟨_, hledger, rfl, rfl, rfl, rfl, rfl, rfl, rfl⟩

/-- Witness of C17: `["A1", "A2", "A3"]` for Carol on a fresh service; her
bookings are then one booking with exactly that seat list. -/
theorem reserveSeats_booking_content_witness :
    (∃ b : BookingData,
      (BookingService.new.reserveSeats ⟨10, 10, true⟩ 1 1 ["A1", "A2", "A3"]
        "Carol").svc.m_bookingData = BookingService.new.m_bookingData ++ [b] ∧
      b.theaterId = 1 ∧ b.movieId = 1 ∧ b.customerId = "Carol" ∧
      b.seatIds = ["A1", "A2", "A3"] ∧ b.seatIds.length = ["A1", "A2", "A3"].length ∧
      b.id = BookingService.new.m_nextBookingId ∧
      b.bookingTime = (⟨10, 10, true⟩ : Env).bookingTime) ∧
    (BookingService.new.reserveSeats ⟨10, 10, true⟩ 1 1 ["A1", "A2", "A3"]
      "Carol").svc.getBookingData "Carol" = [⟨1, "Carol", 1, 1, ["A1", "A2", "A3"], 10⟩] :=
  ⟨reserveSeats_booking_content BookingService.new ⟨10, 10, true⟩ 1 1 ["A1", "A2", "A3"]
      "Carol" (by decide),
    by decide⟩

/-- C18 (seat status is monotone).  In every state reachable from a fresh
service (1) every seat of every collection has status `Available` or
`Reserved`, never `Occupied`; (2) along any further calls of `reserveSeats`,
every position of every collection keeps its seat id and its status either
stays as it is or goes from `Available` to `Reserved`; (3) so a seat that is
`Reserved` is `Reserved` in every later state. -/
theorem seat_status_monotone (svc : BookingService) (h : BookingService.Reachable svc) :
    (∀ (theaterId movieId : Int) (seats : List Seat),
      svc.seatsOf theaterId movieId = some seats →
      ∀ s ∈ seats, (s.m_status = Seat.Status.Available ∨ s.m_status = Seat.Status.Reserved) ∧
        s.m_status ≠ Seat.Status.Occupied) ∧
    (∀ later, BookingService.Steps svc later →
      ∀ (theaterId movieId : Int) (seats : List Seat) (i : Nat) (s : Seat),
        svc.seatsOf theaterId movieId = some seats → seats[i]? = some s →
        ∃ seats' s', later.seatsOf theaterId movieId = some seats' ∧ seats'[i]? = some s' ∧
          s'.m_id = s.m_id ∧
          (s'.m_status = s.m_status ∨
            (s.m_status = Seat.Status.Available ∧ s'.m_status = Seat.Status.Reserved))) ∧
    (∀ later, BookingService.Steps svc later →
      ∀ (theaterId movieId : Int) (seats : List Seat) (i : Nat) (s : Seat),
        svc.seatsOf theaterId movieId = some seats → seats[i]? = some s →
        s.m_status = Seat.Status.Reserved →
        ∃ seats' s', later.seatsOf theaterId movieId = some seats' ∧ seats'[i]? = some s' ∧
          s'.m_id = s.m_id ∧ s'.m_status = Seat.Status.Reserved) := by
  refine ⟨?_, ?_, ?_⟩
  · intro theaterId movieId seats hs s hmem
    have hc := h.status_cases theaterId movieId seats hs s hmem
    refine ⟨hc, ?_⟩
    rcases hc with hc | hc <;> rw [hc] <;> decide
  · intro later hsteps
    exact hsteps.seat_monotone
  · intro later hsteps theaterId movieId seats i s hs hget hres
    obtain ⟨seats', s', hs', hget', hid, hst⟩ :=
      hsteps.seat_monotone theaterId movieId seats i s hs hget
    refine ⟨seats', s', hs', hget', hid, ?_⟩
    rcases hst with hst | ⟨hav, _⟩
    · rw [hst, hres]
    · rw [hres] at hav
      cases hav

/-- Witness of C18: from the state after Alice has reserved `A1` to
`twoBookings`, the seat at position 0 of theater 1 and movie 1 stays
`Reserved`. -/
theorem seat_status_monotone_witness :
    BookingService.Reachable
      (BookingService.new.reserveSeats ⟨10, 10, true⟩ 1 1 ["A1"] "Alice").svc ∧
    BookingService.Steps (BookingService.new.reserveSeats ⟨10, 10, true⟩ 1 1 ["A1"] "Alice").svc
      BookingService.twoBookings ∧
    ∃ seats' s', BookingService.twoBookings.seatsOf 1 1 = some seats' ∧
      seats'[0]? = some s' ∧
      s'.m_id = (⟨"A1", Seat.Status.Reserved⟩ : Seat).m_id ∧
      s'.m_status = Seat.Status.Reserved :=
  ⟨BookingService.Reachable.reserve _ _ _ _ _ _ BookingService.Reachable.fresh,
    BookingService.Steps.reserve _ _ _ _ _ _ BookingService.Steps.refl,
    (seat_status_monotone _
      (BookingService.Reachable.reserve _ ⟨10, 10, true⟩ 1 1 ["A1"] "Alice"
        BookingService.Reachable.fresh)).2.2
      BookingService.twoBookings
      (BookingService.Steps.reserve _ _ _ _ _ _ BookingService.Steps.refl) 1 1
      (⟨"A1", Seat.Status.Reserved⟩ ::
        (List.range 19).map (fun k => ⟨"A" ++ toString (k + 2), Seat.Status.Available⟩))
      0 ⟨"A1", Seat.Status.Reserved⟩ (by decide) (by decide) rfl⟩

/-- C19 (ledger and seats agree).  In every state reachable from a fresh
service, a seat of the collection of a theater and movie has status `Reserved`
if and only if its id occurs in the seat list of some ledger booking with that
theater and movie. -/
theorem reserved_iff_booked (svc : BookingService) (h : BookingService.Reachable svc)
    (theaterId movieId : Int) (seats : List Seat) (s : Seat)
    (hs : svc.seatsOf theaterId movieId = some seats) (hmem : s ∈ seats) :
    s.m_status = Seat.Status.Reserved ↔
      ∃ b ∈ svc.m_bookingData, b.theaterId = theaterId ∧ b.movieId = movieId ∧
        s.m_id ∈ b.seatIds := by
  constructor
  · intro hres
    exact h.reserved_booked theaterId movieId seats hs s hmem (by rw [hres]; decide)
  · rintro ⟨b, hb, hbT, hbM, hin⟩
    obtain ⟨seats₀, i, s₀, hs₀, hfind, hst⟩ := h.ledger_invariant.1 b hb s.m_id hin
    rw [hbT, hbM, hs] at hs₀
    have heq : seats₀ = seats := (Option.some.inj hs₀).symm
    rw [heq] at hfind
    have hm := BookingService.findSeat_mem hfind
    have : s₀ = s := List.inj_on_of_nodup_map (h.nodup_ids hs) hm.1 hmem hm.2
    rw [← this]
    exact hst

/-- Witness of C19 on `twoBookings`: seat `A2` of theater 1 and movie 1 is
`Reserved` and Bob's booking names it. -/
theorem reserved_iff_booked_witness :
    BookingService.Reachable BookingService.twoBookings ∧
    ((⟨"A2", Seat.Status.Reserved⟩ : Seat).m_status = Seat.Status.Reserved ↔
      ∃ b ∈ BookingService.twoBookings.m_bookingData, b.theaterId = 1 ∧ b.movieId = 1 ∧
        (⟨"A2", Seat.Status.Reserved⟩ : Seat).m_id ∈ b.seatIds) :=
  ⟨BookingService.twoBookings_reachable,
    reserved_iff_booked BookingService.twoBookings BookingService.twoBookings_reachable 1 1
      ((List.range 20).map (fun k => ⟨"A" ++ toString (k + 1),
        if k < 3 then Seat.Status.Reserved else Seat.Status.Available⟩))
      ⟨"A2", Seat.Status.Reserved⟩ (by decide) (by decide)⟩

/-- Counterexample to C20 as stated: a successful call made from a thread other
than the one of the service emits `seatsReserved` only; no `bookingCreated`
follows. -/
theorem booking_created_not_emitted :
    (BookingService.new.reserveSeats ⟨10, 10, false⟩ 1 1 ["A1"] "Alice").ok = true ∧
    (BookingService.new.reserveSeats ⟨10, 10, false⟩ 1 1 ["A1"] "Alice").signals =
      [Signal.seatsReserved 1 1 ["A1"]] ∧
    (BookingService.new.reserveSeats ⟨10, 10, false⟩ 1 1 ["A1"] "Alice").svc.m_bookingData =
      [⟨1, "Alice", 1, 1, ["A1"], 10⟩] := by
  decide

/-- C20 (amended).  A successful `reserveSeats` appends one booking to the
ledger and emits `seatsReserved` with the theater, movie and seat list of the
call first; when the call runs in the thread of the service, exactly one
`bookingCreated` follows, carrying a booking with the id, customer, movie,
theater and seat list of the new ledger entry; when it runs in another thread
nothing follows.  No `reservationFailed` is emitted.  A call that returns
`false` emits exactly one `reservationFailed` and nothing else. -/
theorem reserveSeats_signals (svc : BookingService) (env : Env) (theaterId movieId : Int)
    (seatIds : List String) (customerName : String) :
    ((svc.reserveSeats env theaterId movieId seatIds customerName).ok = true →
      ∃ d : BookingData,
        (svc.reserveSeats env theaterId movieId seatIds customerName).svc.m_bookingData =
          svc.m_bookingData ++ [d] ∧
        ((env.inServiceThread = true ∧
            ∃ b : Booking,
              (svc.reserveSeats env theaterId movieId seatIds customerName).signals =
                [Signal.seatsReserved theaterId movieId seatIds, Signal.bookingCreated b] ∧
              b.m_id = d.id ∧ b.m_customerId = d.customerId ∧ b.m_movieId = d.movieId ∧
              b.m_theaterId = d.theaterId ∧ b.m_seatIds = d.seatIds) ∨
          (env.inServiceThread = false ∧
            (svc.reserveSeats env theaterId movieId seatIds customerName).signals =
              [Signal.seatsReserved theaterId movieId seatIds]))) ∧
    ((svc.reserveSeats env theaterId movieId seatIds customerName).ok = false →
      ∃ reason,
        (svc.reserveSeats env theaterId movieId seatIds customerName).signals =
          [Signal.reservationFailed reason]) := by
  constructor
  · intro hok
    obtain ⟨ts, seats, h₁, h₂, h₃⟩ :=
      BookingService.reserveSeats_ok_shape svc env theaterId movieId seatIds customerName hok
    have hr := BookingService.reserveSeats_verify_ok svc env theaterId movieId seatIds
      customerName ts seats _ h₁ h₂ h₃
    refine ⟨⟨svc.m_nextBookingId, customerName, movieId, theaterId, seatIds,
      env.bookingTime⟩, by rw [hr], ?_⟩
    cases hthr : env.inServiceThread with
    | true =>
      left
      refine ⟨rfl, ⟨svc.m_nextBookingId, customerName, movieId, theaterId, seatIds,
        env.objectTime⟩, ?_, rfl, rfl, rfl, rfl, rfl⟩
      rw [hr]
      simp [hthr]
    | false =>
      right
      refine ⟨rfl, ?_⟩
      rw [hr]
      simp [hthr]
  · intro hok
    obtain ⟨reason, hr⟩ :=
      BookingService.reserveSeats_fail_shape svc env theaterId movieId seatIds customerName hok
    exact ⟨reason, by rw [hr]⟩

/-- Witness of the amended C20 on a fresh service: in the thread of the
service `["A1"]` for Alice emits both signals, and `["Z9"]` for Dave emits one
`reservationFailed`. -/
theorem reserveSeats_signals_witness :
    (BookingService.new.reserveSeats ⟨10, 11, true⟩ 1 1 ["A1"] "Alice").signals =
      [Signal.seatsReserved 1 1 ["A1"],
       Signal.bookingCreated ⟨1, "Alice", 1, 1, ["A1"], 11⟩] ∧
    (∃ d : BookingData,
      (BookingService.new.reserveSeats ⟨10, 11, true⟩ 1 1 ["A1"] "Alice").svc.m_bookingData =
        BookingService.new.m_bookingData ++ [d] ∧
      (((⟨10, 11, true⟩ : Env).inServiceThread = true ∧
          ∃ b : Booking,
            (BookingService.new.reserveSeats ⟨10, 11, true⟩ 1 1 ["A1"] "Alice").signals =
              [Signal.seatsReserved 1 1 ["A1"], Signal.bookingCreated b] ∧
            b.m_id = d.id ∧ b.m_customerId = d.customerId ∧ b.m_movieId = d.movieId ∧
            b.m_theaterId = d.theaterId ∧ b.m_seatIds = d.seatIds) ∨
        ((⟨10, 11, true⟩ : Env).inServiceThread = false ∧
          (BookingService.new.reserveSeats ⟨10, 11, true⟩ 1 1 ["A1"] "Alice").signals =
            [Signal.seatsReserved 1 1 ["A1"]]))) ∧
    ∃ reason,
      (BookingService.new.reserveSeats ⟨10, 11, true⟩ 1 1 ["Z9"] "Dave").signals =
        [Signal.reservationFailed reason] :=
  ⟨by decide,
    (reserveSeats_signals BookingService.new ⟨10, 11, true⟩ 1 1 ["A1"] "Alice").1 (by decide),
    (reserveSeats_signals BookingService.new ⟨10, 11, true⟩ 1 1 ["Z9"] "Dave").2 (by decide)⟩

/-- C21 (`getTheaters` ignores its argument).  For every service state and
every integer `movieId`, `getTheaters(movieId)` is the whole theater catalog
in insertion order, the same list for any two arguments; a call of
`reserveSeats` changes neither this result nor the one of `getMovies()`; and
in every state reachable from a fresh service the ids of the theaters returned
are 1, 2, 3 in that order, also for a `movieId` of no movie. -/
theorem getTheaters_ignores_movie (svc : BookingService) (movieId : Int) :
    svc.getTheaters movieId = svc.m_theaters ∧
    (∀ other : Int, svc.getTheaters other = svc.getTheaters movieId) ∧
    (∀ (env : Env) (t m : Int) (seatIds : List String) (customerName : String),
      (svc.reserveSeats env t m seatIds customerName).svc.getTheaters movieId =
        svc.getTheaters movieId ∧
      (svc.reserveSeats env t m seatIds customerName).svc.getMovies = svc.getMovies) ∧
    (BookingService.Reachable svc →
      (svc.getTheaters movieId).map Theater.getId = [1, 2, 3] ∧
      svc.getTheaters movieId =
        [⟨1, "IMAX Hall", 20⟩, ⟨2, "VIP Hall", 20⟩, ⟨3, "Standard Hall A", 20⟩]) := by
  refine ⟨rfl, fun _ => rfl, ?_, ?_⟩
  · intro env t m seatIds customerName
    exact BookingService.reserveSeats_catalog svc env t m seatIds customerName
  · intro h
    have hc : svc.getTheaters movieId = BookingService.new.m_theaters := h.catalog.1
    rw [hc]
    exact ⟨by decide, by decide⟩

/-- Witness of C21: in `twoBookings` the theaters of movie 99, which is no
movie, are the three theaters. -/
theorem getTheaters_ignores_movie_witness :
    BookingService.Reachable BookingService.twoBookings ∧
    (BookingService.twoBookings.getTheaters 99).map Theater.getId = [1, 2, 3] ∧
    BookingService.twoBookings.getTheaters 99 = BookingService.new.getTheaters 1 ∧
    BookingService.twoBookings.getMovies = BookingService.new.getMovies :=
  ⟨BookingService.twoBookings_reachable,
    ((getTheaters_ignores_movie BookingService.twoBookings 99).2.2.2
      BookingService.twoBookings_reachable).1,
    by decide, by decide⟩

/-- C24 (`Seat::setStatus`).  For every seat and every status: after
`setStatus(status)` the status read by `getStatus()` is `status`,
`isAvailable()` holds exactly when `status` is `Available`, and the seat id is
the one before; `statusChanged(status)` is emitted exactly once when `status`
differs from the status before, and not at all when it is equal, the seat then
being unchanged; so a second `setStatus(status)` emits nothing and changes
nothing. -/
theorem setStatus_spec (seat : Seat) (status : Seat.Status) :
    (seat.setStatus status).1.getStatus = status ∧
    ((seat.setStatus status).1.isAvailable = true ↔ status = Seat.Status.Available) ∧
    (seat.setStatus status).1.getId = seat.getId ∧
    (seat.getStatus ≠ status → (seat.setStatus status).2 = [status]) ∧
    (seat.getStatus = status →
      (seat.setStatus status).2 = [] ∧ (seat.setStatus status).1 = seat) ∧
    (seat.setStatus status).1.setStatus status = ((seat.setStatus status).1, []) := by
  have hfst := Seat.setStatus_fst seat status
  refine ⟨?_, ?_, ?_, ?_, ?_, ?_⟩
  · rw [hfst]
    rfl
  · rw [hfst]
    simp [Seat.isAvailable]
  · rw [hfst]
    rfl
  · intro hne
    have hne' : seat.m_status ≠ status := hne
    simp [Seat.setStatus, hne']
  · intro heq
    have heq' : seat.m_status = status := heq
    simp [Seat.setStatus, heq']
  · rw [hfst]
    simp [Seat.setStatus]

/-- Witness of C24: the seat `A1` of the model test, set to `Reserved` once
and then again. -/
theorem setStatus_spec_witness :
    ((⟨"A1", Seat.Status.Available⟩ : Seat).setStatus Seat.Status.Reserved).1.getStatus =
      Seat.Status.Reserved ∧
    ((⟨"A1", Seat.Status.Available⟩ : Seat).setStatus Seat.Status.Reserved).1.isAvailable =
      false ∧
    ((⟨"A1", Seat.Status.Available⟩ : Seat).setStatus Seat.Status.Reserved).2 =
      [Seat.Status.Reserved] ∧
    ((⟨"A1", Seat.Status.Reserved⟩ : Seat).setStatus Seat.Status.Reserved).2 = [] ∧
    ((⟨"A1", Seat.Status.Reserved⟩ : Seat).setStatus Seat.Status.Reserved).1 =
      ⟨"A1", Seat.Status.Reserved⟩ :=
  ⟨(setStatus_spec ⟨"A1", Seat.Status.Available⟩ Seat.Status.Reserved).1,
    by decide,
    (setStatus_spec ⟨"A1", Seat.Status.Available⟩ Seat.Status.Reserved).2.2.2.1 (by decide),
    ((setStatus_spec ⟨"A1", Seat.Status.Reserved⟩ Seat.Status.Reserved).2.2.2.2.1 rfl).1,
    ((setStatus_spec ⟨"A1", Seat.Status.Reserved⟩ Seat.Status.Reserved).2.2.2.2.1 rfl).2⟩

/-- C22 (frame of a successful reservation).  After a successful
`reserveSeats` for a theater, a movie and a list of ids: the collection of
that theater and movie holds seats with the same ids in the same order, and
every position whose seat has an id that is not requested holds the very seat
it held (same status); every other collection is the collection it was, so
`getAvailableSeats` for any other theater or movie returns the list it
returned before. -/
theorem reserveSeats_frame (svc : BookingService) (env : Env) (theaterId movieId : Int)
    (seatIds : List String) (customerName : String)
    (hok : (svc.reserveSeats env theaterId movieId seatIds customerName).ok = true) :
    (∃ seats seats',
      svc.seatsOf theaterId movieId = some seats ∧
      (svc.reserveSeats env theaterId movieId seatIds customerName).svc.seatsOf
        theaterId movieId = some seats' ∧
      seats'.map Seat.m_id = seats.map Seat.m_id ∧
      ∀ (i : Nat) (s : Seat), seats[i]? = some s → s.m_id ∉ seatIds → seats'[i]? = some s) ∧
    (∀ t₂ m₂ : Int, ¬ (t₂ = theaterId ∧ m₂ = movieId) →
      (svc.reserveSeats env theaterId movieId seatIds customerName).svc.seatsOf t₂ m₂ =
        svc.seatsOf t₂ m₂ ∧
      (svc.reserveSeats env theaterId movieId seatIds customerName).svc.getAvailableSeats
        t₂ m₂ = svc.getAvailableSeats t₂ m₂) := by
  obtain ⟨ts, seats, h₁, h₂, h₃⟩ :=
    BookingService.reserveSeats_ok_shape svc env theaterId movieId seatIds customerName hok
  have hr := BookingService.reserveSeats_verify_ok svc env theaterId movieId seatIds
    customerName ts seats _ h₁ h₂ h₃
  have hafter := BookingService.seatsOf_storeSeats svc
    (svc.reserveSeats env theaterId movieId seatIds customerName).svc theaterId movieId ts
    seats (BookingService.reserveAll seats (BookingService.pointersOf seats seatIds)) h₁ h₂
    (by rw [hr])
  constructor
  · refine ⟨seats, BookingService.reserveAll seats (BookingService.pointersOf seats seatIds),
      (BookingService.seatsOf_eq_some_iff svc theaterId movieId seats).mpr ⟨ts, h₁, h₂⟩,
      ?_, BookingService.reserveAll_map_id seats _, ?_⟩
    · rw [hafter theaterId movieId]
      simp
    · intro i s hget hnot
      rw [BookingService.reserveAll_getElem?, hget]
      have hi : i ∉ BookingService.pointersOf seats seatIds := by
        intro hin
        obtain ⟨seatId, hmem, s₀, hfind⟩ := BookingService.mem_pointersOf.mp hin
        have h₀ := BookingService.findSeat_some hfind
        rw [hget] at h₀
        have hss : s = s₀ := Option.some.inj h₀.1
        apply hnot
        rw [hss, h₀.2]
        exact hmem
      simp [hi]
  · intro t₂ m₂ hne
    have hs₂ := hafter t₂ m₂
    rw [if_neg hne] at hs₂
    refine ⟨hs₂, ?_⟩
    rw [BookingService.getAvailableSeats_eq, BookingService.getAvailableSeats_eq, hs₂]

/-- Witness of C22: after `["A1"]` is reserved in theater 1 for movie 1 on a
fresh service, seat `A2` of that collection is as it was, and the seats `A1`
of theater 2 (movie 1) and of movie 2 (theater 1) are still available. -/
theorem reserveSeats_frame_witness :
    ((∃ seats seats',
      BookingService.new.seatsOf 1 1 = some seats ∧
      (BookingService.new.reserveSeats ⟨10, 10, true⟩ 1 1 ["A1"] "Alice").svc.seatsOf 1 1 =
        some seats' ∧
      seats'.map Seat.m_id = seats.map Seat.m_id ∧
      ∀ (i : Nat) (s : Seat), seats[i]? = some s → s.m_id ∉ ["A1"] → seats'[i]? = some s) ∧
    (∀ t₂ m₂ : Int, ¬ (t₂ = 1 ∧ m₂ = 1) →
      (BookingService.new.reserveSeats ⟨10, 10, true⟩ 1 1 ["A1"] "Alice").svc.seatsOf t₂ m₂ =
        BookingService.new.seatsOf t₂ m₂ ∧
      (BookingService.new.reserveSeats ⟨10, 10, true⟩ 1 1 ["A1"]
        "Alice").svc.getAvailableSeats t₂ m₂ = BookingService.new.getAvailableSeats t₂ m₂)) ∧
    ((BookingService.new.reserveSeats ⟨10, 10, true⟩ 1 1 ["A1"] "Alice").svc.getAvailableSeats
      2 1).head? = some ⟨"A1", Seat.Status.Available⟩ ∧
    ((BookingService.new.reserveSeats ⟨10, 10, true⟩ 1 1 ["A1"] "Alice").svc.getAvailableSeats
      1 2).head? = some ⟨"A1", Seat.Status.Available⟩ ∧
    ((BookingService.new.reserveSeats ⟨10, 10, true⟩ 1 1 ["A1"] "Alice").svc.getAvailableSeats
      1 1).head? = some ⟨"A2", Seat.Status.Available⟩ :=
  ⟨reserveSeats_frame BookingService.new ⟨10, 10, true⟩ 1 1 ["A1"] "Alice" (by decide),
    by decide, by decide, by decide⟩

/-- C23 (shape of the seat collections).  In every state reachable from a
fresh service the seat map holds exactly the 12 collections of theaters 1, 2, 3
and movies 1, 2, 3, 4; each collection holds exactly 20 seats, whose ids are
`A1`, ..., `A20` in that order and pairwise distinct; the number of its
`Available` seats plus the number of its `Reserved` seats is 20; and two
positions of a collection whose seats have the same id are the same position,
so the lookup of a seat by id finds at most one seat. -/
theorem seat_collections_shape (svc : BookingService) (h : BookingService.Reachable svc) :
    svc.m_theaterSeats.map (fun p => (p.1, p.2.movieSeats.map Prod.fst)) =
      [(1, [1, 2, 3, 4]), (2, [1, 2, 3, 4]), (3, [1, 2, 3, 4])] ∧
    (∀ theaterId ∈ ([1, 2, 3] : List Int), ∀ movieId ∈ ([1, 2, 3, 4] : List Int),
      ∃ seats, svc.seatsOf theaterId movieId = some seats) ∧
    (∀ (theaterId movieId : Int) (seats : List Seat),
      svc.seatsOf theaterId movieId = some seats →
      theaterId ∈ ([1, 2, 3] : List Int) ∧ movieId ∈ ([1, 2, 3, 4] : List Int) ∧
      seats.length = 20 ∧
      seats.map Seat.getId =
        ["A1", "A2", "A3", "A4", "A5", "A6", "A7", "A8", "A9", "A10",
         "A11", "A12", "A13", "A14", "A15", "A16", "A17", "A18", "A19", "A20"] ∧
      (seats.map Seat.getId).Nodup ∧
      (seats.filter (fun s => decide (s.m_status = Seat.Status.Available))).length +
        (seats.filter (fun s => decide (s.m_status = Seat.Status.Reserved))).length = 20 ∧
      (∀ (i j : Nat) (s t : Seat), seats[i]? = some s → seats[j]? = some t →
        s.getId = t.getId → i = j)) := by
  refine ⟨?_, h.collection_ids.1, ?_⟩
  · have hmap : svc.m_theaterSeats.map (fun p => (p.1, p.2.movieSeats.map Prod.fst)) =
        svc.seatIdsOf.map (fun e => (e.1, e.2.map Prod.fst)) := by
      simp [BookingService.seatIdsOf, List.map_map, Function.comp_def]
    rw [hmap, h.seatIdsOf_eq]
    decide
  · intro theaterId movieId seats hs
    obtain ⟨hT, hM, hids⟩ := h.collection_ids.2 theaterId movieId seats hs
    have hnd : (seats.map Seat.m_id).Nodup := h.nodup_ids hs
    have hlen : seats.length = 20 := by
      have := congrArg List.length hids
      rw [List.length_map] at this
      exact this
    refine ⟨hT, hM, hlen, hids, hnd, ?_, ?_⟩
    · have hsplit := List.length_eq_length_filter_add (l := seats)
        (fun s => decide (s.m_status = Seat.Status.Available))
      have hcongr : seats.filter (fun s => !decide (s.m_status = Seat.Status.Available)) =
          seats.filter (fun s => decide (s.m_status = Seat.Status.Reserved)) := by
        apply List.filter_congr
        intro s hmem
        rcases h.status_cases theaterId movieId seats hs s hmem with hst | hst <;>
          simp [hst]
      rw [hcongr] at hsplit
      omega
    · intro i j s t hi hj hid
      have hfi := BookingService.findSeat_of_getElem?_nodup hnd hi
      have hfj := BookingService.findSeat_of_getElem?_nodup hnd hj
      have hid' : s.m_id = t.m_id := hid
      rw [hid', hfj] at hfi
      exact (Prod.mk.inj (Option.some.inj hfi)).1.symm

/-- Witness of C23 on `twoBookings`: theater 1 and movie 1 hold 17 available
and 3 reserved seats. -/
theorem seat_collections_shape_witness :
    BookingService.Reachable BookingService.twoBookings ∧
    BookingService.twoBookings.m_theaterSeats.map
        (fun p => (p.1, p.2.movieSeats.map Prod.fst)) =
      [(1, [1, 2, 3, 4]), (2, [1, 2, 3, 4]), (3, [1, 2, 3, 4])] ∧
    (∃ seats, BookingService.twoBookings.seatsOf 1 1 = some seats ∧
      (seats.filter (fun s => decide (s.m_status = Seat.Status.Available))).length = 17 ∧
      (seats.filter (fun s => decide (s.m_status = Seat.Status.Reserved))).length = 3) :=
  ⟨BookingService.twoBookings_reachable,
    (seat_collections_shape BookingService.twoBookings
      BookingService.twoBookings_reachable).1,
    ⟨(List.range 20).map (fun k => ⟨"A" ++ toString (k + 1),
        if k < 3 then Seat.Status.Reserved else Seat.Status.Available⟩),
      by decide, by decide, by decide⟩⟩
